import Mathlib

/-!
# Salt provisioner: command construction, elevation wrapper, grains merge, apply pipeline

A shallow embedding of `saltstack/resource_provisioner.go`.  Go strings are
Lean strings, `error` values are `Option String` (the message, `none` for
`nil`), and the remote communicator is an oracle answering each operation
from the history of the run.  The standard-library functions the source calls
(`fmt.Sprintf`, `filepath.Join`, `filepath.ToSlash`) are a parameter `GoLib` of
the pipeline, so a statement over every `GoLib` holds for the real ones; the
instance `goLib` is used where a run is evaluated.
-/

namespace Saltstack

/-! ## Configuration -/

/-- The `provisioner` struct of the source, field for field. -/
structure provisioner where
  SkipBootstrap : Bool
  BootstrapArgs : String
  LocalStateTree : String
  DisableSudo : Bool
  CustomState : String
  MinionConfig : String
  LocalPillarRoots : String
  RemoteStateTree : String
  RemotePillarRoots : String
  TempConfigDir : String
  NoExitOnFailure : Bool
  LogLevel : String
  SaltCallArgs : String
  CmdArgs : String
  Grains : Bool
  EnableGrains : Bool
  TfVars : String
  SudoPassword : String
deriving DecidableEq

def DefaultStateTreeDir : String := "/srv/salt"
def DefaultPillarRootDir : String := "/srv/pillar"
def RemoteGrainsFile : String := "/etc/salt/grains"

/-- The values `d.Get` yields for the options of the provisioner schema
(`*schema.ResourceData`): an unset string option reads as the empty string, an
unset boolean as false, unless the schema gives a default. -/
structure ResourceData where
  local_state_tree : String
  local_pillar_roots : String
  remote_state_tree : String
  remote_pillar_roots : String
  temp_config_dir : String
  skip_bootstrap : Bool
  no_exit_on_failure : Bool
  bootstrap_args : String
  disable_sudo : Bool
  custom_state : String
  minion_config_file : String
  cmd_args : String
  salt_call_args : String
  log_level : String
  tfvars : String
  sudo_password : String
  grains : Bool
deriving DecidableEq

/-- `decodeConfig`: fills the struct from the options, then builds `CmdArgs`
by successive writes to a buffer.  The error result is always `nil`. -/
def decodeConfig (d : ResourceData) : provisioner × Option String :=
  let p : provisioner :=
    { LocalStateTree := d.local_state_tree
      LogLevel := d.log_level
      SaltCallArgs := d.salt_call_args
      CmdArgs := d.cmd_args
      MinionConfig := d.minion_config_file
      CustomState := d.custom_state
      DisableSudo := d.disable_sudo
      BootstrapArgs := d.bootstrap_args
      NoExitOnFailure := d.no_exit_on_failure
      SkipBootstrap := d.skip_bootstrap
      TempConfigDir := d.temp_config_dir
      RemotePillarRoots := d.remote_pillar_roots
      RemoteStateTree := d.remote_state_tree
      LocalPillarRoots := d.local_pillar_roots
      Grains := d.grains
      EnableGrains := false
      TfVars := d.tfvars
      SudoPassword := d.sudo_password }
  let cmdArgs : String := ""
  let cmdArgs :=
    if p.CustomState = "" then cmdArgs ++ " state.highstate"
    else (cmdArgs ++ " state.sls ") ++ p.CustomState
  let cmdArgs :=
    if p.MinionConfig = "" then
      let cmdArgs :=
        if p.RemoteStateTree ≠ "" then (cmdArgs ++ " --file-root=") ++ p.RemoteStateTree
        else (cmdArgs ++ " --file-root=") ++ DefaultStateTreeDir
      if p.RemotePillarRoots ≠ "" then (cmdArgs ++ " --pillar-root=") ++ p.RemotePillarRoots
      else (cmdArgs ++ " --pillar-root=") ++ DefaultPillarRootDir
    else cmdArgs
  let cmdArgs := if !p.NoExitOnFailure then cmdArgs ++ " --retcode-passthrough" else cmdArgs
  let cmdArgs :=
    if p.LogLevel = "" then cmdArgs ++ " -l info"
    else (cmdArgs ++ " -l ") ++ p.LogLevel
  let cmdArgs :=
    if p.SaltCallArgs ≠ "" then (cmdArgs ++ " ") ++ p.SaltCallArgs else cmdArgs
  ({ p with CmdArgs := cmdArgs }, none)

/-- The command-argument string as the specification words it: the groups in
order, each present or absent as described. -/
def cmdArgsSpec (d : ResourceData) : String :=
  (if d.custom_state = "" then " state.highstate" else " state.sls " ++ d.custom_state)
  ++ (if d.minion_config_file = "" then
        " --file-root=" ++ (if d.remote_state_tree = "" then "/srv/salt" else d.remote_state_tree)
        ++ " --pillar-root="
        ++ (if d.remote_pillar_roots = "" then "/srv/pillar" else d.remote_pillar_roots)
      else "")
  ++ (if d.no_exit_on_failure then "" else " --retcode-passthrough")
  ++ " -l " ++ (if d.log_level = "" then "info" else d.log_level)
  ++ (if d.salt_call_args = "" then "" else " " ++ d.salt_call_args)

/-- Go's `strings.Contains`: `sub` occurs in `s` as a contiguous run. -/
def stringsContains (s sub : String) : Prop := sub.data <:+: s.data

instance decidableStringsContains (s sub : String) : Decidable (stringsContains s sub) := by
  unfold stringsContains; infer_instance

/-- Go's `strings.HasSuffix`. -/
def stringsHasSuffix (s suffix : String) : Prop := suffix.data <:+ s.data

/-- `provisioner.sudo`: prepends the elevation wrapper to a command. -/
def provisioner.sudo (p : provisioner) (cmd : String) : String :=
  if p.DisableSudo then cmd
  else if p.SudoPassword ≠ "" then (("echo '" ++ p.SudoPassword) ++ "' | sudo -S ") ++ cmd
  else "sudo " ++ cmd

/-! ## Library functions the source calls -/

/-- The standard-library functions the source calls on strings: `fmt.Sprintf`
(every call site passes string operands; an `error` operand is passed as its
message), `filepath.Join` of two elements, and `filepath.ToSlash`. -/
structure GoLib where
  Sprintf : String → List String → String
  Join : String → String → String
  ToSlash : String → String

/-- What `fmt.Sprintf` appends for operands no directive consumed. -/
def extraArgs : List String → List Char
  | [] => []
  | a :: rest =>
    "%!(EXTRA ".data
      ++ (String.intercalate ", " ((a :: rest).map fun x => "string=" ++ x)).data ++ [')']

/-- The formatting loop of `fmt.Sprintf` over string operands.  Text is copied;
`%%` writes a percent sign; `%s` and `%v` write the next operand; any other
verb character `c` writes `%!c(string=operand)`; a verb with no operand left
writes `%!c(MISSING)`; a lone `%` ending the format writes `%!(NOVERB)`;
operands left over are reported by `extraArgs`.  This is Go's output whenever
no `%` is followed by a flag, a width, a precision, an argument index or one of
the verbs `q`, `x`, `X`, `T` (see `plainDirectives`); those directives have
renderings of their own in Go, which this model does not reproduce. -/
def sprintfAux : List Char → List String → List Char
  | [], args => extraArgs args
  | c :: rest, args =>
    if c = '%' then
      match rest with
      | [] => "%!(NOVERB)".data ++ extraArgs args
      | v :: rest2 =>
        if v = '%' then '%' :: sprintfAux rest2 args
        else
          match args with
          | [] => ("%!".data ++ v :: "(MISSING)".data) ++ sprintfAux rest2 []
          | a :: args2 =>
            (if v = 's' ∨ v = 'v' then a.data
             else "%!".data ++ v :: ("(string=".data ++ a.data ++ [')']))
              ++ sprintfAux rest2 args2
    else c :: sprintfAux rest args

/-- Model of `fmt.Sprintf` on string operands. -/
def Sprintf (format : String) (args : List String) : String :=
  String.mk (sprintfAux format.data args)

/-- Whether every directive of a format lies in the fragment on which
`Sprintf` is Go's `fmt.Sprintf`. -/
def plainDirectives : List Char → Bool
  | [] => true
  | c :: rest =>
    if c = '%' then
      match rest with
      | [] => true
      | v :: rest2 => !("#0+- 123456789.*[qxXT".data.contains v) && plainDirectives rest2
    else plainDirectives rest

/-- Splits a path at every slash. -/
def splitSlash : List Char → List (List Char)
  | [] => [[]]
  | c :: cs =>
    match splitSlash cs with
    | [] => [[]]
    | hd :: tl => if c = '/' then [] :: hd :: tl else (c :: hd) :: tl

/-- The element pass of `filepath.Clean`: empty and `.` elements are dropped,
`..` removes the element before it, is dropped at the root, and is kept at the
start of a relative path.  The first argument holds the elements kept so far,
last first. -/
def cleanElements (rooted : Bool) : List (List Char) → List (List Char) → List (List Char)
  | kept, [] => kept.reverse
  | kept, c :: cs =>
    if c = [] ∨ c = ['.'] then cleanElements rooted kept cs
    else if c = ['.', '.'] then
      match kept with
      | [] => if rooted then cleanElements rooted [] cs else cleanElements rooted [c] cs
      | top :: below =>
        if top = ['.', '.'] then cleanElements rooted (c :: kept) cs
        else cleanElements rooted below cs
    else cleanElements rooted (c :: kept) cs

/-- Model of `filepath.Clean` on a host whose separator is the slash. -/
def filepathClean (path : String) : String :=
  if path = "" then "."
  else
    let rooted := path.data.head? = some '/'
    let body := String.intercalate "/"
      ((cleanElements rooted [] (splitSlash path.data)).map String.mk)
    if rooted then "/" ++ body else if body = "" then "." else body

/-- Model of `filepath.Join` for two elements: empty elements are ignored and
the result is cleaned. -/
def filepathJoin (a b : String) : String :=
  if a ≠ "" then filepathClean ((a ++ "/") ++ b)
  else if b ≠ "" then filepathClean b
  else ""

/-- The library on a host whose path separator is the slash, where
`filepath.ToSlash` changes nothing. -/
def goLib : GoLib :=
  { Sprintf := Sprintf
    Join := filepathJoin
    ToSlash := fun s => s }

/-! ## Grains -/

/-- A Go `map[string]interface{}`: keys are unique; `V` stands for the decoded
values.  The order of the entries is the order in which a `range` loop visits
them, so a statement over every such map covers every iteration order. -/
abbrev GoMap (V : Type) : Type := AList (fun _ : String => V)

/-- The loop `for k, v := range m { if _, ok := m[k]; ok { grains[k] = v } }`. -/
def rangeAssign {V : Type} (grains m : GoMap V) : GoMap V :=
  m.entries.foldl
    (fun g kv => if (m.lookup kv.1).isSome then g.insert kv.1 kv.2 else g) grains

/-- The mapping `getGrains` hands to `json.Marshal`: an empty map, assigned from
the decoded provider state and then from the decoded variables file. -/
def mergedGrains {V : Type} (providerGrains parsed : GoMap V) : GoMap V :=
  rangeAssign (rangeAssign ∅ providerGrains) parsed

/-- What `getGrains` reads from outside the program: the JSON encoding of the
instance state, the HCL decoder, the working directory, the file system and the
JSON encoder. -/
structure GrainsEnv (V : Type) where
  jsonMarshalState : Except String String
  hclDecode : String → Except String (GoMap V)
  osGetwd : Except String String
  readFile : String → Except String String
  jsonMarshal : GoMap V → Except String String
  tempFile : Except String String
  writeString : String → String → Option String

/-- `getGrains`: the file to upload, whether the caller deletes it, and the
error. -/
def getGrains {V : Type} (L : GoLib) (E : GrainsEnv V) (d : ResourceData) :
    String × Bool × Option String :=
  match E.jsonMarshalState with
  | .error err => ("", false, some err)
  | .ok jsonGrain =>
    match E.hclDecode jsonGrain with
    | .error err => ("", false, some (L.Sprintf "Error decoding json grains: %s" [err]))
    | .ok providerGrains =>
      match E.osGetwd with
      | .error err => ("", false, some err)
      | .ok _ =>
        let tfvarsFile := d.tfvars
        match E.readFile tfvarsFile with
        | .error err => ("", false, some err)
        | .ok input =>
          match E.hclDecode input with
          | .error err =>
            ("", false,
              some (L.Sprintf "Error decoding terraform.tfvars file for grains: %s" [err]))
          | .ok parsed =>
            match E.jsonMarshal (mergedGrains providerGrains parsed) with
            | .error err => ("", false, some err)
            | .ok jsonGrain =>
              match E.tempFile with
              | .error err => ("", true, some err)
              | .ok name =>
                match E.writeString name jsonGrain with
                | some err => ("", true, some err)
                | none => (name, true, none)

/-! ## Remote operations -/

/-- The call sites of `applyFn` that reach the communicator. -/
inductive Site where
  | connect
  | bootstrapDownload
  | bootstrapInstall
  | tempDir
  | grainsUpload
  | grainsMove
  | minionUpload
  | minionDir
  | minionMove
  | stateUpload
  | stateRemove
  | stateMove
  | pillarUpload
  | pillarRemove
  | pillarMove
  | saltCall
deriving DecidableEq

/-- A call on the communicator: `Connect` (the whole retry loop), `Start` of a
remote command, `Wait` on it, `Upload` of a local file and `UploadDir`. -/
inductive Op where
  | Connect
  | Start (command : String)
  | Wait (command : String)
  | Upload (dst src : String)
  | UploadDir (dst src : String)
deriving DecidableEq

/-- One communicator call of a run: where it was issued, what it was, and the
error it returned. -/
structure Event where
  site : Site
  op : Op
  err : Option String
deriving DecidableEq

/-- How a function ends: `nil`, an error, or a run-time panic. -/
inductive Outcome where
  | nil
  | error (msg : String)
  | panic (msg : String)
deriving DecidableEq

/-- Everything outside the program: whether `communicator.New` fails, the
communicator's answer to each call given the calls so far, whether `os.Open`
fails on a path, and the surroundings of `getGrains`. -/
structure World (V : Type) where
  communicatorNew : Option String
  comm : List Event → Op → Option String
  osOpen : String → Option String
  grainsEnv : GrainsEnv V

/-- A piece of the run: from the calls made so far to its outcome and the
calls made once it ends. -/
abbrev Run : Type := List Event → Outcome × List Event

/-- One communicator call. -/
def perform {V : Type} (W : World V) (site : Site) (op : Op) : Run := fun t =>
  match W.comm t op with
  | none => (Outcome.nil, t ++ [⟨site, op, none⟩])
  | some msg => (Outcome.error msg, t ++ [⟨site, op, some msg⟩])

/-- Sequencing with `if err != nil { return err }`: the second piece runs only
when the first ended with `nil`. -/
def andThen (a b : Run) : Run := fun t =>
  match a t with
  | (Outcome.nil, t1) => b t1
  | (r, t1) => (r, t1)

/-- The pattern `return fmt.Errorf(..., err)`: the error message is replaced. -/
def mapError (f : String → String) (a : Run) : Run := fun t =>
  match a t with
  | (Outcome.error msg, t1) => (Outcome.error (f msg), t1)
  | (r, t1) => (r, t1)

/-- The pattern `if err = ...; err != nil { err = fmt.Errorf(...) }` with no
`return`: the error is assigned and never read again. -/
def discardError (a : Run) : Run := fun t =>
  match a t with
  | (Outcome.error _, t1) => (Outcome.nil, t1)
  | (r, t1) => (r, t1)

/-- An immediate `return err`. -/
def failWith (msg : String) : Run := fun t => (Outcome.error msg, t)

/-- A run-time panic. -/
def panicWith (msg : String) : Run := fun t => (Outcome.panic msg, t)

/-- A block that is not entered. -/
def skip : Run := fun t => (Outcome.nil, t)

/-- The command text of `createDir`. -/
def createDirCommand (L : GoLib) (dir : String) : String := L.Sprintf "mkdir -p '%s'" [dir]

/-- The command text of `removeDir`. -/
def removeDirCommand (L : GoLib) (dir : String) : String := L.Sprintf "rm -rf '%s'" [dir]

/-- The command text of `moveFile`: the wrapped text is the format string. -/
def moveFileCommand (L : GoLib) (p : provisioner) (dst src : String) : String :=
  L.Sprintf (p.sudo "mv %s %s") [src, dst]

/-- The command text of the final invocation. -/
def saltCallCommand (L : GoLib) (p : provisioner) : String :=
  p.sudo (L.Sprintf "salt-call --local %s" [p.CmdArgs])

/-- `provisioner.uploadFile`. -/
def uploadFile {V : Type} (L : GoLib) (W : World V) (site : Site) (dst src : String) : Run :=
  match W.osOpen src with
  | some err => failWith (L.Sprintf "Error opening: %s" [err])
  | none =>
    mapError (fun err => L.Sprintf "Error uploading %s: %s" [src, err])
      (perform W site (Op.Upload dst src))

/-- `provisioner.moveFile`. -/
def moveFile {V : Type} (L : GoLib) (W : World V) (site : Site) (p : provisioner)
    (dst src : String) : Run :=
  let cmd := moveFileCommand L p dst src
  andThen
    (mapError (fun err => L.Sprintf "Unable to move %s to %s: %s" [src, dst, err])
      (perform W site (Op.Start cmd)))
    (perform W site (Op.Wait cmd))

/-- `provisioner.createDir`. -/
def createDir {V : Type} (L : GoLib) (W : World V) (site : Site) (dir : String) : Run :=
  let cmd := createDirCommand L dir
  andThen (perform W site (Op.Start cmd)) (perform W site (Op.Wait cmd))

/-- `provisioner.removeDir`. -/
def removeDir {V : Type} (L : GoLib) (W : World V) (site : Site) (dir : String) : Run :=
  let cmd := removeDirCommand L dir
  andThen (perform W site (Op.Start cmd)) (perform W site (Op.Wait cmd))

/-- The source path `uploadDir` passes on: a slash is added unless the last
byte is one. -/
def withTrailingSlash (src : String) : String :=
  if src.data.getLast? ≠ some '/' then src ++ "/" else src

/-- `provisioner.uploadDir`: indexing the last byte of an empty `src` panics,
after the directory has been created. -/
def uploadDir {V : Type} (L : GoLib) (W : World V) (site : Site) (dst src : String) : Run :=
  andThen (createDir L W site dst)
    (if src = "" then panicWith "index out of range [-1]"
     else perform W site (Op.UploadDir dst (withTrailingSlash src)))

/-! ## The apply pipeline

Progress output, the output pipes with their copying goroutines, the
disconnect-on-cancel goroutine and the deferred removal of the local grains
file make no communicator call and decide no branch; they are left out. -/

/-- The bootstrap block of `applyFn`: the error of the first `Start` is
assigned and dropped, the error of the second is returned. -/
def bootstrapStage {V : Type} (L : GoLib) (W : World V) (p : provisioner) : Run :=
  if !p.SkipBootstrap then
    let download := L.Sprintf
      "curl -L https://bootstrap.saltstack.com -o /tmp/install_salt.sh || wget -O /tmp/install_salt.sh https://bootstrap.saltstack.com"
      []
    andThen
      (discardError
        (mapError (fun err => L.Sprintf "Unable to download Salt: %s" [err])
          (perform W Site.bootstrapDownload (Op.Start download))))
      (andThen (perform W Site.bootstrapDownload (Op.Wait download))
        (let install :=
          L.Sprintf "%s /tmp/install_salt.sh %s" [p.sudo "sh", p.BootstrapArgs]
         andThen
          (mapError (fun err => L.Sprintf "Unable to install Salt: %s" [err])
            (perform W Site.bootstrapInstall (Op.Start install)))
          (perform W Site.bootstrapInstall (Op.Wait install))))
  else skip

/-- Creation of the remote temporary directory, outside every conditional. -/
def tempDirStage {V : Type} (L : GoLib) (W : World V) (p : provisioner) : Run :=
  mapError (fun err => L.Sprintf "Error creating remote temporary directory: %s" [err])
    (createDir L W Site.tempDir p.TempConfigDir)

/-- The `if p.Grains` block. -/
def grainsStage {V : Type} (L : GoLib) (W : World V) (d : ResourceData) (p : provisioner) :
    Run :=
  if p.Grains then
    match getGrains L W.grainsEnv d with
    | (_, _, some err) => failWith err
    | (src, _, none) =>
      let dst := L.ToSlash (L.Join p.TempConfigDir "grains")
      andThen
        (mapError
          (fun err => L.Sprintf "Error uploading local grains config file to remote: %s" [err])
          (uploadFile L W Site.grainsUpload dst src))
        (let src := L.ToSlash (L.Join p.TempConfigDir "grains")
         let dst := "/etc/salt/grains"
         mapError
          (fun err => L.Sprintf "Unable to move %s/grains to %s: %s" [p.TempConfigDir, dst, err])
          (moveFile L W Site.grainsMove p dst src))
  else skip

/-- The `if p.MinionConfig != ""` block. -/
def minionStage {V : Type} (L : GoLib) (W : World V) (p : provisioner) : Run :=
  if p.MinionConfig ≠ "" then
    let src := p.MinionConfig
    let dst := L.ToSlash (L.Join p.TempConfigDir "minion")
    andThen
      (mapError
        (fun err => L.Sprintf "Error uploading local minion config file to remote: %s" [err])
        (uploadFile L W Site.minionUpload dst src))
      (andThen
        (mapError
          (fun err => L.Sprintf "Error creating remote salt configuration directory: %s" [err])
          (createDir L W Site.minionDir "/etc/salt"))
        (let src := L.ToSlash (L.Join p.TempConfigDir "minion")
         let dst := "/etc/salt/minion"
         mapError
          (fun err =>
            L.Sprintf "Unable to move %s/minion to /etc/salt/minion: %s" [p.TempConfigDir, err])
          (moveFile L W Site.minionMove p dst src)))
  else skip

/-- Upload of the local state tree into the staging directory. -/
def stateUploadStep {V : Type} (L : GoLib) (W : World V) (p : provisioner) : Run :=
  let src := p.LocalStateTree
  let dst := L.ToSlash (L.Join p.TempConfigDir "states")
  mapError (fun err => L.Sprintf "Error uploading local state tree to remote: %s" [err])
    (uploadDir L W Site.stateUpload dst src)

/-- Clearing of the state-tree destination: `dst = p.RemoteStateTree`. -/
def stateRemoveStep {V : Type} (L : GoLib) (W : World V) (p : provisioner) : Run :=
  let dst := p.RemoteStateTree
  mapError (fun err => L.Sprintf "Unable to clear salt tree: %s" [err])
    (removeDir L W Site.stateRemove dst)

/-- Move of the staged state tree to `dst = p.RemoteStateTree`. -/
def stateMoveStep {V : Type} (L : GoLib) (W : World V) (p : provisioner) : Run :=
  let src := L.ToSlash (L.Join p.TempConfigDir "states")
  let dst := p.RemoteStateTree
  mapError
    (fun err => L.Sprintf "Unable to move %s/states to %s: %s" [p.TempConfigDir, dst, err])
    (moveFile L W Site.stateMove p dst src)

/-- The `if p.LocalPillarRoots != ""` block. -/
def pillarStage {V : Type} (L : GoLib) (W : World V) (p : provisioner) : Run :=
  if p.LocalPillarRoots ≠ "" then
    let src := p.LocalPillarRoots
    let dst := L.ToSlash (L.Join p.TempConfigDir "pillar")
    andThen
      (mapError (fun err => L.Sprintf "Error uploading local pillar roots to remote: %s" [err])
        (uploadDir L W Site.pillarUpload dst src))
      (let src := L.ToSlash (L.Join p.TempConfigDir "pillar")
       let dst := p.RemotePillarRoots
       andThen
        (mapError (fun err => L.Sprintf "Unable to clear pillar root: %s" [err])
          (removeDir L W Site.pillarRemove dst))
        (mapError
          (fun err =>
            L.Sprintf "Unable to move %s/pillar to %s: %s" [p.TempConfigDir, dst, err])
          (moveFile L W Site.pillarMove p dst src)))
  else skip

/-- The final invocation: the error of `Start` is assigned and dropped, the
result is that of `Wait`. -/
def saltCallStage {V : Type} (L : GoLib) (W : World V) (p : provisioner) : Run :=
  let cmd := saltCallCommand L p
  andThen
    (discardError
      (mapError (fun err => L.Sprintf "Error executing salt-call: %s" [err])
        (perform W Site.saltCall (Op.Start cmd))))
    (perform W Site.saltCall (Op.Wait cmd))

/-- Everything `applyFn` does between connecting and the state-tree upload,
the upload included. -/
def stagesBefore {V : Type} (L : GoLib) (W : World V) (d : ResourceData) (p : provisioner) :
    Run :=
  andThen (perform W Site.connect Op.Connect)
    (andThen (bootstrapStage L W p)
      (andThen (tempDirStage L W p)
        (andThen (grainsStage L W d p)
          (andThen (minionStage L W p) (stateUploadStep L W p)))))

/-- Everything `applyFn` does after the state-tree destination is cleared. -/
def stagesAfter {V : Type} (L : GoLib) (W : World V) (p : provisioner) : Run :=
  andThen (stateMoveStep L W p) (andThen (pillarStage L W p) (saltCallStage L W p))

/-- `applyFn`: the outcome and the communicator calls of one apply, in the
order they were made. -/
def applyFn {V : Type} (L : GoLib) (W : World V) (d : ResourceData) : Outcome × List Event :=
  match decodeConfig d with
  | (_, some err) => (Outcome.error err, [])
  | (p, none) =>
    match W.communicatorNew with
    | some err => (Outcome.error err, [])
    | none =>
      andThen (stagesBefore L W d p) (andThen (stateRemoveStep L W p) (stagesAfter L W p)) []

/-- A world in which every call succeeds and both decoded grain sources are
empty. -/
def calmWorld : World String :=
  { communicatorNew := none
    comm := fun _ _ => none
    osOpen := fun _ => none
    grainsEnv :=
      { jsonMarshalState := .ok "null"
        hclDecode := fun _ => .ok ∅
        osGetwd := .ok "/work"
        readFile := fun _ => .ok ""
        jsonMarshal := fun _ => .ok "[]"
        tempFile := .ok "/tmp/tf-grain-content1"
        writeString := fun _ _ => none } }

/-- A configuration with every option at its schema default and the state
tree at `salt/`. -/
def defaultData : ResourceData :=
  { local_state_tree := "salt"
    local_pillar_roots := ""
    remote_state_tree := ""
    remote_pillar_roots := ""
    temp_config_dir := "/tmp/salt"
    skip_bootstrap := false
    no_exit_on_failure := false
    bootstrap_args := ""
    disable_sudo := false
    custom_state := ""
    minion_config_file := ""
    cmd_args := ""
    salt_call_args := ""
    log_level := ""
    tfvars := "terraform.tfvars"
    sudo_password := ""
    grains := true }

/-! ## Concrete inputs -/

/-- The default configuration with bootstrap skipped and grains off: no
optional stage is enabled. -/
def bareData : ResourceData := { defaultData with skip_bootstrap := true, grains := false }

/-- The bare configuration with the state-tree destination given. -/
def rootedData : ResourceData := { bareData with remote_state_tree := "/srv/salt" }

/-- The rooted configuration with an elevation password. -/
def passwordData : ResourceData := { rootedData with sudo_password := "pw" }

/-- The rooted configuration with an elevation password that holds a percent
sign. -/
def percentData : ResourceData := { rootedData with sudo_password := "a%sb" }

/-- A configuration in minion-config mode that also sets both remote roots. -/
def minionData : ResourceData :=
  { defaultData with
    minion_config_file := "minion", remote_state_tree := "/a", remote_pillar_roots := "/b",
    custom_state := "web", salt_call_args := "--x=1" }

/-- A world in which the command clearing `/srv/salt` exits non-zero and every
other call succeeds. -/
def clearFailsWorld : World String :=
  { calmWorld with
    comm := fun _ op => if op = Op.Wait "rm -rf '/srv/salt'" then some "exit status 1" else none }

/-- The calls the rooted configuration makes in `clearFailsWorld` before the
failing one. -/
def clearFailsCalls : List Event :=
  [⟨Site.connect, Op.Connect, none⟩,
   ⟨Site.tempDir, Op.Start "mkdir -p '/tmp/salt'", none⟩,
   ⟨Site.tempDir, Op.Wait "mkdir -p '/tmp/salt'", none⟩,
   ⟨Site.stateUpload, Op.Start "mkdir -p '/tmp/salt/states'", none⟩,
   ⟨Site.stateUpload, Op.Wait "mkdir -p '/tmp/salt/states'", none⟩,
   ⟨Site.stateUpload, Op.UploadDir "/tmp/salt/states" "salt/", none⟩,
   ⟨Site.stateRemove, Op.Start "rm -rf '/srv/salt'", none⟩]

/-- The failing call in `clearFailsWorld`. -/
def clearFailsLast : Event :=
  ⟨Site.stateRemove, Op.Wait "rm -rf '/srv/salt'", some "exit status 1"⟩

/-- The rooted configuration with bootstrap enabled. -/
def bootstrapData : ResourceData := { rootedData with skip_bootstrap := false }

/-- The command of the bootstrap block that downloads the install script. -/
def downloadCommand : String :=
  "curl -L https://bootstrap.saltstack.com -o /tmp/install_salt.sh || wget -O /tmp/install_salt.sh https://bootstrap.saltstack.com"

/-- The final invocation of the rooted configuration. -/
def rootedSaltCall : String :=
  "sudo salt-call --local  state.highstate --file-root=/srv/salt --pillar-root=/srv/pillar --retcode-passthrough -l info"

/-- A world in which `Start` fails for the bootstrap download and for the final
invocation, while every other call, each `Wait` included, returns `nil`. -/
def startFailsWorld : World String :=
  { calmWorld with
    comm := fun _ op =>
      if op = Op.Start downloadCommand ∨ op = Op.Start rootedSaltCall then
        some "session refused"
      else none }

/-- A world in which `Start` fails for the bootstrap install command and every
other call returns `nil`. -/
def installFailsWorld : World String :=
  { calmWorld with
    comm := fun _ op =>
      if op = Op.Start "sudo sh /tmp/install_salt.sh " then some "session refused" else none }

/-- A decoded provider state with two keys. -/
def providerSample : GoMap String := AList.insert "id" "i-1" (AList.insert "ami" "a-7" ∅)

/-- A decoded variables file that overrides `id` and adds `env`. -/
def variablesSample : GoMap String :=
  AList.insert "id" "override" (AList.insert "env" "prod" ∅)

/-- An encoder that writes out every entry of a mapping, so that two
mappings with different entries are encoded differently. -/
def renderGrains (m : GoMap String) : String :=
  String.intercalate "," (m.entries.map fun kv => (kv.1 ++ "=") ++ kv.2)

/-- Surroundings of `getGrains` in which the instance state decodes to
`providerSample`, the file `terraform.tfvars` decodes to `variablesSample`, the
encoder is `renderGrains` and the file system accepts the write. -/
def grainsSampleEnv : GrainsEnv String :=
  { jsonMarshalState := .ok "state"
    hclDecode := fun text =>
      if text = "state" then .ok providerSample
      else if text = "vars" then .ok variablesSample
      else .error "parse error"
    osGetwd := .ok "/work"
    readFile := fun path =>
      if path = "terraform.tfvars" then .ok "vars" else .error "no such file"
    jsonMarshal := fun m => .ok (renderGrains m)
    tempFile := .ok "/tmp/tf-grain-content1"
    writeString := fun _ _ => none }

/-! ## Notions used by the statements and proofs -/

/-- The outcome of a function that returns the given `error` value. -/
def outcomeOf (err : Option String) : Outcome :=
  match err with
  | none => Outcome.nil
  | some msg => Outcome.error msg

/-- Every site but that of the final invocation. -/
def sitesBeforeSaltCall : List Site :=
  [Site.connect, Site.bootstrapDownload, Site.bootstrapInstall, Site.tempDir, Site.grainsUpload,
    Site.grainsMove, Site.minionUpload, Site.minionDir, Site.minionMove, Site.stateUpload,
    Site.stateRemove, Site.stateMove, Site.pillarUpload, Site.pillarRemove, Site.pillarMove]

/-- The tokens of a command line, each preceded by one space. -/
def spaced : List (List Char) → List Char
  | [] => []
  | t :: ts => ' ' :: (t ++ spaced ts)

/-- The tokens of `CmdArgs` in minion-config mode. -/
def minionTokens (d : ResourceData) : List (List Char) :=
  (if d.custom_state = "" then ["state.highstate".data]
   else ["state.sls".data, d.custom_state.data])
  ++ (if d.no_exit_on_failure then [] else ["--retcode-passthrough".data])
  ++ ["-l".data, if d.log_level = "" then "info".data else d.log_level.data]
  ++ (if d.salt_call_args = "" then [] else [d.salt_call_args.data])

/-- A piece of the run only adds calls, all issued at sites of `S`. -/
def Emits (S : List Site) (r : Run) : Prop :=
  ∀ t, ∃ s, (r t).2 = t ++ s ∧ ∀ e ∈ s, e.site ∈ S

/-- The sites reached before the state-tree destination is cleared. -/
def sitesBefore : List Site :=
  [Site.connect, Site.bootstrapDownload, Site.bootstrapInstall, Site.tempDir, Site.grainsUpload,
    Site.grainsMove, Site.minionUpload, Site.minionDir, Site.minionMove, Site.stateUpload]

/-- The sites reached after the state-tree destination is cleared: the
state-tree move, pillar staging and the final invocation. -/
def sitesAfter : List Site :=
  [Site.stateMove, Site.pillarUpload, Site.pillarRemove, Site.pillarMove, Site.saltCall]

/-- The sites of state-tree staging and of the final invocation, with the
connection itself. -/
def sitesStateTreeAndSaltCall : List Site :=
  [Site.connect, Site.stateUpload, Site.stateRemove, Site.stateMove, Site.saltCall]

/-! ## Command construction -/

/-- Claim C1: for every configuration `decodeConfig` returns no error and its
`CmdArgs` is the concatenation the specification describes (`cmdArgsSpec`):
the state directive, the two root flags only without a minion config file, the
retcode flag unless `NoExitOnFailure`, the log level, then the extra call
arguments; the value of `cmd_args` plays no part; and `CustomState = "webserver"`
with no overrides gives the stated command. -/
theorem decodeConfig_cmdArgs_eq_spec :
    (∀ d : ResourceData, (decodeConfig d).2 = none ∧ (decodeConfig d).1.CmdArgs = cmdArgsSpec d)
    ∧ (∀ (d : ResourceData) (x : String),
        (decodeConfig { d with cmd_args := x }).1.CmdArgs = (decodeConfig d).1.CmdArgs)
    ∧ (decodeConfig { defaultData with custom_state := "webserver" }).1.CmdArgs
        = " state.sls webserver --file-root=/srv/salt --pillar-root=/srv/pillar --retcode-passthrough -l info" := by
  refine ⟨fun d => ⟨rfl, ?_⟩, fun d x => rfl, by decide⟩
  unfold decodeConfig cmdArgsSpec DefaultStateTreeDir DefaultPillarRootDir
  by_cases h1 : d.custom_state = "" <;> by_cases h2 : d.minion_config_file = ""
    <;> by_cases h3 : d.remote_state_tree = "" <;> by_cases h4 : d.remote_pillar_roots = ""
    <;> by_cases h5 : d.log_level = "" <;> by_cases h6 : d.salt_call_args = ""
    <;> cases h7 : d.no_exit_on_failure
    <;> simp [h1, h2, h3, h4, h5, h6, h7, String.append_assoc]
    <;> rfl

/-- A run `w` that avoids the character `c` and occurs in `a ++ c :: b` occurs
in `a` or in `b`. -/
theorem occurs_split_at {w a b : List Char} {c : Char} (hc : c ∉ w)
    (h : w <:+: a ++ c :: b) : w <:+: a ∨ w <:+: b := by
  obtain ⟨s, t, hst⟩ := h
  rcases List.append_eq_append_iff.mp hst with ⟨a', ha, _⟩ | ⟨c', hc', hcb⟩
  · exact Or.inl ⟨s, a', ha.symm⟩
  · cases c' with
    | nil => exact Or.inl ⟨s, [], by simpa using hc'⟩
    | cons x c2 =>
      simp only [List.cons_append, List.cons.injEq] at hcb
      obtain ⟨rfl, hb⟩ := hcb
      rcases List.append_eq_append_iff.mp hc' with ⟨a', _, hw⟩ | ⟨c3, _, hc3⟩
      · exact absurd (by rw [hw]; simp) hc
      · cases c3 with
        | nil => exact absurd (by rw [← show c :: c2 = w from by simpa using hc3]; simp) hc
        | cons y c4 =>
          simp only [List.cons_append, List.cons.injEq] at hc3
          exact Or.inr ⟨c4, t, by rw [hb, hc3.2]⟩

/-- A non-empty run without a space that occurs in a spaced token list occurs
inside one token. -/
theorem occurs_in_token {w : List Char} (hne : w ≠ []) (hsp : ' ' ∉ w) :
    ∀ toks : List (List Char), w <:+: spaced toks → ∃ t ∈ toks, w <:+: t
  | [], h => by
    simp only [spaced] at h
    exact absurd (List.eq_nil_of_infix_nil h) hne
  | t :: ts, h => by
    have h1 : w <:+: [] ++ ' ' :: (t ++ spaced ts) := by simpa [spaced] using h
    rcases occurs_split_at hsp h1 with h2 | h2
    · exact absurd (List.eq_nil_of_infix_nil h2) hne
    · cases ts with
      | nil =>
        simp only [spaced, List.append_nil] at h2
        exact ⟨t, by simp, h2⟩
      | cons t2 ts2 =>
        simp only [spaced] at h2
        rcases occurs_split_at hsp h2 with h3 | h3
        · exact ⟨t, by simp, h3⟩
        · obtain ⟨u, hu, hwu⟩ := occurs_in_token hne hsp (t2 :: ts2)
            (by simp only [spaced]; exact (List.infix_cons h3))
          exact ⟨u, by simp [hu], hwu⟩

/-- In minion-config mode `CmdArgs` is the spaced list of `minionTokens`. -/
theorem cmdArgs_minion_tokens (d : ResourceData) (hm : d.minion_config_file ≠ "") :
    (decodeConfig d).1.CmdArgs.data = spaced (minionTokens d) := by
  unfold decodeConfig minionTokens
  by_cases h1 : d.custom_state = ""
    <;> by_cases h5 : d.log_level = "" <;> by_cases h6 : d.salt_call_args = ""
    <;> cases h7 : d.no_exit_on_failure
    <;> simp [h1, hm, h5, h6, h7, String.data_append, spaced]

/-- In minion-config mode a space-free flag that occurs in no fixed token and in
none of the three free-text options does not occur in `CmdArgs`. -/
theorem flag_absent_from_cmdArgs (d : ResourceData) (hm : d.minion_config_file ≠ "")
    (f : String) (hne : f.data ≠ []) (hsp : ' ' ∉ f.data)
    (hfixed : ∀ t ∈ ["state.highstate", "state.sls", "--retcode-passthrough", "-l", "info"],
      ¬ stringsContains t f)
    (hvar : ∀ s ∈ [d.custom_state, d.log_level, d.salt_call_args], ¬ stringsContains s f) :
    ¬ stringsContains (decodeConfig d).1.CmdArgs f := by
  intro h
  unfold stringsContains at h hfixed hvar
  rw [cmdArgs_minion_tokens d hm] at h
  obtain ⟨t, ht, hw⟩ := occurs_in_token hne hsp _ h
  have hmem : t ∈ ["state.highstate", "state.sls", "--retcode-passthrough", "-l", "info"].map
      String.data ∨ t ∈ [d.custom_state, d.log_level, d.salt_call_args].map String.data := by
    unfold minionTokens at ht
    simp only [List.mem_append, List.mem_cons, List.mem_singleton, List.map_cons, List.map_nil,
      List.not_mem_nil, or_false] at ht ⊢
    split_ifs at ht <;> simp only [List.mem_cons, List.mem_singleton, List.not_mem_nil,
      or_false] at ht <;> tauto
  rcases hmem with hmem | hmem
  · obtain ⟨u, hu, rfl⟩ := List.mem_map.mp hmem
    exact hfixed u hu hw
  · obtain ⟨u, hu, rfl⟩ := List.mem_map.mp hmem
    exact hvar u hu hw

/-- Claim C2: for every configuration with a non-empty minion config file whose
`CustomState`, `LogLevel` and `SaltCallArgs` contain neither flag string, the
built command contains neither `--file-root=` nor `--pillar-root=`; and the
built command is the same for every choice of `RemoteStateTree` and
`RemotePillarRoots`. -/
theorem decodeConfig_minion_omits_root_flags (d : ResourceData)
    (hm : d.minion_config_file ≠ "")
    (hc : ∀ s ∈ [d.custom_state, d.log_level, d.salt_call_args],
      ¬ stringsContains s "--file-root=" ∧ ¬ stringsContains s "--pillar-root=") :
    (¬ stringsContains (decodeConfig d).1.CmdArgs "--file-root="
      ∧ ¬ stringsContains (decodeConfig d).1.CmdArgs "--pillar-root=")
    ∧ ∀ tree roots : String,
        (decodeConfig { d with remote_state_tree := tree, remote_pillar_roots := roots }).1.CmdArgs
          = (decodeConfig d).1.CmdArgs := by
  refine ⟨⟨?_, ?_⟩, ?_⟩
  · exact flag_absent_from_cmdArgs d hm _ (by decide) (by decide) (by decide)
      (fun s hs => (hc s hs).1)
  · exact flag_absent_from_cmdArgs d hm _ (by decide) (by decide) (by decide)
      (fun s hs => (hc s hs).2)
  · intro tree roots
    unfold decodeConfig
    simp [hm]

/-- Witness for claim C2: a configuration in minion-config mode that sets both
remote roots; its command carries neither flag. -/
theorem decodeConfig_minion_omits_root_flags_witness :
    (decodeConfig minionData).1.CmdArgs = " state.sls web --retcode-passthrough -l info --x=1"
    ∧ (¬ stringsContains (decodeConfig minionData).1.CmdArgs "--file-root="
        ∧ ¬ stringsContains (decodeConfig minionData).1.CmdArgs "--pillar-root=")
    ∧ ∀ tree roots : String,
        (decodeConfig
          { minionData with remote_state_tree := tree, remote_pillar_roots := roots }).1.CmdArgs
          = (decodeConfig minionData).1.CmdArgs :=
  ⟨by decide,
    decodeConfig_minion_omits_root_flags minionData (by decide) (by decide)⟩

/-! ## Elevation wrapper -/

/-- Claim C3: `sudo cmd` is `cmd` when `DisableSudo` is set; otherwise
`echo '<password>' | sudo -S <cmd>` when the password is non-empty; otherwise
`sudo <cmd>`; and `cmd` is always a suffix of the result. -/
theorem sudo_wraps_command (p : provisioner) (cmd : String) :
    (p.DisableSudo = true → p.sudo cmd = cmd)
    ∧ (p.DisableSudo = false → p.SudoPassword ≠ "" →
        p.sudo cmd = "echo '" ++ p.SudoPassword ++ "' | sudo -S " ++ cmd)
    ∧ (p.DisableSudo = false → p.SudoPassword = "" → p.sudo cmd = "sudo " ++ cmd)
    ∧ stringsHasSuffix (p.sudo cmd) cmd := by
  refine ⟨?_, ?_, ?_, ?_⟩
  · intro h; simp [provisioner.sudo, h]
  · intro h h2; simp [provisioner.sudo, h, h2]
  · intro h h2; simp [provisioner.sudo, h, h2]
  · unfold stringsHasSuffix provisioner.sudo
    split_ifs
    · exact List.suffix_refl _
    · rw [String.data_append]; exact List.suffix_append _ _
    · rw [String.data_append]; exact List.suffix_append _ _

/-! ## Grains merge -/

/-- Folding the guarded assignment over entries with distinct keys, all present
in `m`: a key of the entries gets its entry's value, any other key keeps the
value it had. -/
theorem foldl_assign_lookup {V : Type} (m : GoMap V) (k : String) :
    ∀ (l : List (Sigma fun _ : String => V)) (g : GoMap V), l.NodupKeys →
      (∀ kv ∈ l, (m.lookup kv.1).isSome = true) →
      (l.foldl (fun g kv => if (m.lookup kv.1).isSome then g.insert kv.1 kv.2 else g) g).lookup k
        = (match l.dlookup k with
           | some v => some v
           | none => g.lookup k)
  | [], g, _, _ => by simp
  | kv :: l, g, hnd, hall => by
    have hkv : (m.lookup kv.1).isSome = true := hall kv (by simp)
    have hnd2 := List.nodupKeys_cons.mp hnd
    rw [List.foldl_cons, foldl_assign_lookup m k l _ hnd2.2 (fun x hx => hall x (by simp [hx]))]
    simp only [hkv, if_true]
    by_cases hk : k = kv.1
    · subst hk
      have hnone : List.dlookup kv.1 l = none := List.dlookup_eq_none.mpr hnd2.1
      obtain ⟨a, b⟩ := kv
      simp [hnone, AList.lookup_insert, List.dlookup_cons_eq]
    · rw [List.dlookup_cons_ne l kv hk, AList.lookup_insert_ne hk]

/-- After `rangeAssign grains m` a key of `m` maps to its value in `m`, any
other key to what `grains` held. -/
theorem rangeAssign_lookup {V : Type} (g m : GoMap V) (k : String) :
    (rangeAssign g m).lookup k
      = (match m.lookup k with
         | some v => some v
         | none => g.lookup k) := by
  unfold rangeAssign
  rw [foldl_assign_lookup m k m.entries g m.nodupKeys]
  · rfl
  · intro kv hkv
    exact AList.lookup_isSome.mpr (AList.mem_keys.mpr (List.mem_keys_of_mem hkv))

/-- The merged grains look a key up in the variables file first, then in the
provider state. -/
theorem mergedGrains_lookup {V : Type} (pg parsed : GoMap V) (k : String) :
    (mergedGrains pg parsed).lookup k
      = (match parsed.lookup k with
         | some v => some v
         | none => pg.lookup k) := by
  unfold mergedGrains
  rw [rangeAssign_lookup, rangeAssign_lookup]
  cases parsed.lookup k <;> cases pg.lookup k <;> simp

/-- The two range loops merge with the variables file winning: a key of the
variables file has the variables-file value, a key only in the provider state
has the provider-state value, the keys are exactly the union, and two empty
mappings merge to the empty mapping. -/
theorem mergedGrains_merge {V : Type} (providerGrains parsed : GoMap V) :
    (∀ k v, parsed.lookup k = some v → (mergedGrains providerGrains parsed).lookup k = some v)
    ∧ (∀ k v, providerGrains.lookup k = some v → parsed.lookup k = none →
        (mergedGrains providerGrains parsed).lookup k = some v)
    ∧ (∀ k, k ∈ mergedGrains providerGrains parsed ↔ k ∈ providerGrains ∨ k ∈ parsed)
    ∧ mergedGrains (∅ : GoMap V) ∅ = ∅ := by
  refine ⟨?_, ?_, ?_, rfl⟩
  · intro k v h; rw [mergedGrains_lookup, h]
  · intro k v h1 h2; rw [mergedGrains_lookup, h2, h1]
  · intro k
    rw [← AList.lookup_isSome, ← AList.lookup_isSome, ← AList.lookup_isSome, mergedGrains_lookup]
    cases parsed.lookup k <;> cases providerGrains.lookup k <;> simp

/-- A successful `getGrains` created the file it returns and wrote to it the
JSON encoding of `mergedGrains` of the two decoded mappings. -/
theorem getGrains_ok {V : Type} (L : GoLib) (E : GrainsEnv V) (d : ResourceData)
    (src : String) (del : Bool) (h : getGrains L E d = (src, del, none)) :
    del = true ∧ E.tempFile = .ok src ∧
    ∃ jsonState providerGrains input parsed json,
      E.jsonMarshalState = .ok jsonState ∧ E.hclDecode jsonState = .ok providerGrains
      ∧ E.readFile d.tfvars = .ok input ∧ E.hclDecode input = .ok parsed
      ∧ E.jsonMarshal (mergedGrains providerGrains parsed) = .ok json
      ∧ E.writeString src json = none := by
  unfold getGrains at h
  cases h1 : E.jsonMarshalState with
  | error e => simp [h1] at h
  | ok js =>
    cases h2 : E.hclDecode js with
    | error e => simp [h1, h2] at h
    | ok pg =>
      cases h3 : E.osGetwd with
      | error e => simp [h1, h2, h3] at h
      | ok wd =>
        cases h4 : E.readFile d.tfvars with
        | error e => simp [h1, h2, h3, h4] at h
        | ok input =>
          cases h5 : E.hclDecode input with
          | error e => simp [h1, h2, h3, h4, h5] at h
          | ok parsed =>
            cases h6 : E.jsonMarshal (mergedGrains pg parsed) with
            | error e => simp [h1, h2, h3, h4, h5, h6] at h
            | ok json =>
              cases h7 : E.tempFile with
              | error e => simp [h1, h2, h3, h4, h5, h6, h7] at h
              | ok name =>
                cases h8 : E.writeString name json with
                | some e => simp [h1, h2, h3, h4, h5, h6, h7, h8] at h
                | none =>
                  simp [h1, h2, h3, h4, h5, h6, h7, h8] at h
                  obtain ⟨rfl, rfl⟩ := h
                  exact ⟨rfl, rfl, js, pg, input, parsed, json, rfl, h2, rfl, h5, h6, h8⟩

/-- Once both sources are decoded, `getGrains` is the encoding of
`mergedGrains` of the two decoded mappings followed by the write of the
result: the merged mapping is the one argument of the encoder. -/
theorem getGrains_after_decode {V : Type} (L : GoLib) (E : GrainsEnv V) (d : ResourceData)
    (jsonState wd input : String) (providerGrains parsed : GoMap V)
    (h1 : E.jsonMarshalState = .ok jsonState) (h2 : E.hclDecode jsonState = .ok providerGrains)
    (h3 : E.osGetwd = .ok wd) (h4 : E.readFile d.tfvars = .ok input)
    (h5 : E.hclDecode input = .ok parsed) :
    getGrains L E d =
      (match E.jsonMarshal (mergedGrains providerGrains parsed) with
       | .error err => ("", false, some err)
       | .ok json =>
         match E.tempFile with
         | .error err => ("", true, some err)
         | .ok name =>
           match E.writeString name json with
           | some err => ("", true, some err)
           | none => (name, true, none)) := by
  unfold getGrains
  simp only [h1, h2, h3, h4, h5]

/-- Claim C4: the mapping `getGrains` serialises is the right-biased merge of
the decoded provider-state mapping and the decoded variables-file mapping.
Whenever `getGrains` succeeds, the content written to the file it returns is
the encoding of `mergedGrains` of the two decoded mappings; whenever both
sources decode, the result of `getGrains` is decided by the encoder's answer
on that merged mapping and by the write of it; and in the merged mapping a
key of the variables file has the variables-file value, a key only in the
provider state has the provider-state value, the keys are exactly the union
of the two key sets, and two empty mappings merge to the empty mapping. -/
theorem getGrains_serialises_right_biased_merge {V : Type} (L : GoLib) (E : GrainsEnv V)
    (d : ResourceData) :
    (∀ src del, getGrains L E d = (src, del, none) →
      ∃ jsonState providerGrains input parsed json,
        E.jsonMarshalState = .ok jsonState ∧ E.hclDecode jsonState = .ok providerGrains
        ∧ E.readFile d.tfvars = .ok input ∧ E.hclDecode input = .ok parsed
        ∧ E.jsonMarshal (mergedGrains providerGrains parsed) = .ok json
        ∧ E.tempFile = .ok src ∧ E.writeString src json = none ∧ del = true)
    ∧ (∀ (jsonState wd input : String) (providerGrains parsed : GoMap V),
        E.jsonMarshalState = .ok jsonState → E.hclDecode jsonState = .ok providerGrains →
        E.osGetwd = .ok wd → E.readFile d.tfvars = .ok input →
        E.hclDecode input = .ok parsed →
        getGrains L E d =
          (match E.jsonMarshal (mergedGrains providerGrains parsed) with
           | .error err => ("", false, some err)
           | .ok json =>
             match E.tempFile with
             | .error err => ("", true, some err)
             | .ok name =>
               match E.writeString name json with
               | some err => ("", true, some err)
               | none => (name, true, none)))
    ∧ (∀ providerGrains parsed : GoMap V,
        (∀ k v, parsed.lookup k = some v →
          (mergedGrains providerGrains parsed).lookup k = some v)
        ∧ (∀ k v, providerGrains.lookup k = some v → parsed.lookup k = none →
            (mergedGrains providerGrains parsed).lookup k = some v)
        ∧ (∀ k, k ∈ mergedGrains providerGrains parsed ↔ k ∈ providerGrains ∨ k ∈ parsed))
    ∧ mergedGrains (∅ : GoMap V) ∅ = ∅ := by
  refine ⟨?_, ?_, ?_, rfl⟩
  · intro src del h
    obtain ⟨hdel, htemp, js, pg, input, parsed, json, h1, h2, h4, h5, h6, h8⟩ :=
      getGrains_ok L E d src del h
    exact ⟨js, pg, input, parsed, json, h1, h2, h4, h5, h6, htemp, h8, hdel⟩
  · intro js wd input pg parsed h1 h2 h3 h4 h5
    exact getGrains_after_decode L E d js wd input pg parsed h1 h2 h3 h4 h5
  · intro pg parsed
    have h := mergedGrains_merge pg parsed
    exact ⟨h.1, h.2.1, h.2.2.1⟩

/-- Witness for claim C4: with a provider state holding `id` and `ami` and a
variables file holding `id` and `env`, `getGrains` succeeds and what it writes
is the encoding of the merged mapping, in which `id` has the variables-file
value. -/
theorem getGrains_serialises_right_biased_merge_witness :
    getGrains goLib grainsSampleEnv defaultData = ("/tmp/tf-grain-content1", true, none)
    ∧ renderGrains (mergedGrains providerSample variablesSample)
        = "env=prod,id=override,ami=a-7"
    ∧ ∃ jsonState providerGrains input parsed json,
        grainsSampleEnv.jsonMarshalState = .ok jsonState
        ∧ grainsSampleEnv.hclDecode jsonState = .ok providerGrains
        ∧ grainsSampleEnv.readFile defaultData.tfvars = .ok input
        ∧ grainsSampleEnv.hclDecode input = .ok parsed
        ∧ grainsSampleEnv.jsonMarshal (mergedGrains providerGrains parsed) = .ok json
        ∧ grainsSampleEnv.tempFile = .ok "/tmp/tf-grain-content1"
        ∧ grainsSampleEnv.writeString "/tmp/tf-grain-content1" json = none ∧ true = true :=
  ⟨by decide, by decide,
    (getGrains_serialises_right_biased_merge goLib grainsSampleEnv defaultData).1 _ _
      (by decide)⟩

/-! ## The apply pipeline -/

/-- One call adds one event, at its site. -/
theorem emits_perform {V : Type} (W : World V) {S : List Site} {site : Site} (op : Op)
    (h : site ∈ S) : Emits S (perform W site op) := by
  intro t
  unfold perform
  cases W.comm t op <;> exact ⟨[_], rfl, by simpa using h⟩

/-- Sequencing keeps the sites. -/
theorem emits_andThen {S : List Site} {a b : Run} (ha : Emits S a) (hb : Emits S b) :
    Emits S (andThen a b) := by
  intro t
  obtain ⟨s1, h1, hs1⟩ := ha t
  unfold andThen
  rcases hat : a t with ⟨r, t1⟩
  rw [hat] at h1
  simp only at h1
  subst h1
  cases r with
  | nil =>
    obtain ⟨s2, h2, hs2⟩ := hb (t ++ s1)
    refine ⟨s1 ++ s2, by simp [h2], ?_⟩
    intro e he
    rcases List.mem_append.mp he with h | h
    · exact hs1 e h
    · exact hs2 e h
  | error m => exact ⟨s1, rfl, hs1⟩
  | panic m => exact ⟨s1, rfl, hs1⟩

/-- Replacing the error message adds no call. -/
theorem emits_mapError {S : List Site} {a : Run} (f : String → String) (ha : Emits S a) :
    Emits S (mapError f a) := by
  intro t
  obtain ⟨s1, h1, hs1⟩ := ha t
  unfold mapError
  rcases hat : a t with ⟨r, t1⟩
  rw [hat] at h1
  cases r <;> exact ⟨s1, h1, hs1⟩

/-- Dropping the error adds no call. -/
theorem emits_discardError {S : List Site} {a : Run} (ha : Emits S a) :
    Emits S (discardError a) := by
  intro t
  obtain ⟨s1, h1, hs1⟩ := ha t
  unfold discardError
  rcases hat : a t with ⟨r, t1⟩
  rw [hat] at h1
  cases r <;> exact ⟨s1, h1, hs1⟩

/-- An immediate return makes no call. -/
theorem emits_failWith (S : List Site) (msg : String) : Emits S (failWith msg) :=
  fun t => ⟨[], by simp [failWith], by simp⟩

/-- A panic makes no call. -/
theorem emits_panicWith (S : List Site) (msg : String) : Emits S (panicWith msg) :=
  fun t => ⟨[], by simp [panicWith], by simp⟩

/-- A block that is not entered makes no call. -/
theorem emits_skip (S : List Site) : Emits S skip :=
  fun t => ⟨[], by simp [skip], by simp⟩

/-- The calls of `createDir` are issued at its site. -/
theorem emits_createDir {V : Type} (L : GoLib) (W : World V) {S : List Site} {site : Site}
    (dir : String) (h : site ∈ S) : Emits S (createDir L W site dir) :=
  emits_andThen (emits_perform W _ h) (emits_perform W _ h)

/-- The calls of `removeDir` are issued at its site. -/
theorem emits_removeDir {V : Type} (L : GoLib) (W : World V) {S : List Site} {site : Site}
    (dir : String) (h : site ∈ S) : Emits S (removeDir L W site dir) :=
  emits_andThen (emits_perform W _ h) (emits_perform W _ h)

/-- The calls of `moveFile` are issued at its site. -/
theorem emits_moveFile {V : Type} (L : GoLib) (W : World V) {S : List Site} {site : Site}
    (p : provisioner) (dst src : String) (h : site ∈ S) :
    Emits S (moveFile L W site p dst src) :=
  emits_andThen (emits_mapError _ (emits_perform W _ h)) (emits_perform W _ h)

/-- The calls of `uploadFile` are issued at its site. -/
theorem emits_uploadFile {V : Type} (L : GoLib) (W : World V) {S : List Site} {site : Site}
    (dst src : String) (h : site ∈ S) : Emits S (uploadFile L W site dst src) := by
  unfold uploadFile
  split
  · exact emits_failWith _ _
  · exact emits_mapError _ (emits_perform W _ h)

/-- The calls of `uploadDir` are issued at its site. -/
theorem emits_uploadDir {V : Type} (L : GoLib) (W : World V) {S : List Site} {site : Site}
    (dst src : String) (h : site ∈ S) : Emits S (uploadDir L W site dst src) := by
  unfold uploadDir
  refine emits_andThen (emits_createDir L W _ h) ?_
  split
  · exact emits_panicWith _ _
  · exact emits_perform W _ h

/-- Up to the state-tree upload only the earlier sites are reached. -/
theorem emits_stagesBefore {V : Type} (L : GoLib) (W : World V) (d : ResourceData)
    (p : provisioner) : Emits sitesBefore (stagesBefore L W d p) := by
  unfold stagesBefore
  refine emits_andThen (emits_perform W _ (by decide)) (emits_andThen ?_ (emits_andThen ?_
    (emits_andThen ?_ (emits_andThen ?_ ?_))))
  · unfold bootstrapStage
    split
    · exact emits_andThen (emits_discardError (emits_mapError _ (emits_perform W _ (by decide))))
        (emits_andThen (emits_perform W _ (by decide))
          (emits_andThen (emits_mapError _ (emits_perform W _ (by decide)))
            (emits_perform W _ (by decide))))
    · exact emits_skip _
  · exact emits_mapError _ (emits_createDir L W _ (by decide))
  · unfold grainsStage
    split
    · split
      · exact emits_failWith _ _
      · exact emits_andThen (emits_mapError _ (emits_uploadFile L W _ _ (by decide)))
          (emits_mapError _ (emits_moveFile L W _ _ _ (by decide)))
    · exact emits_skip _
  · unfold minionStage
    split
    · exact emits_andThen (emits_mapError _ (emits_uploadFile L W _ _ (by decide)))
        (emits_andThen (emits_mapError _ (emits_createDir L W _ (by decide)))
          (emits_mapError _ (emits_moveFile L W _ _ _ (by decide))))
    · exact emits_skip _
  · exact emits_mapError _ (emits_uploadDir L W _ _ (by decide))

/-- Pillar staging reaches only later sites. -/
theorem emits_pillarStage {V : Type} (L : GoLib) (W : World V) (p : provisioner) :
    Emits sitesAfter (pillarStage L W p) := by
  unfold pillarStage
  split
  · exact emits_andThen (emits_mapError _ (emits_uploadDir L W _ _ (by decide)))
      (emits_andThen (emits_mapError _ (emits_removeDir L W _ (by decide)))
        (emits_mapError _ (emits_moveFile L W _ _ _ (by decide))))
  · exact emits_skip _

/-- After the destination is cleared only the later sites are reached. -/
theorem emits_stagesAfter {V : Type} (L : GoLib) (W : World V) (p : provisioner) :
    Emits sitesAfter (stagesAfter L W p) := by
  unfold stagesAfter
  refine emits_andThen (emits_mapError _ (emits_moveFile L W _ _ _ (by decide)))
    (emits_andThen (emits_pillarStage L W p) ?_)
  exact emits_andThen (emits_discardError (emits_mapError _ (emits_perform W _ (by decide))))
    (emits_perform W _ (by decide))


/-- An element outside `tB` that occurs in `tB ++ s` occurs in `s`, after all of `tB`. -/
theorem split_after_initial {α : Type} {pre post tB s : List α} {e : α}
    (h : pre ++ e :: post = tB ++ s) (he : e ∉ tB) : ∃ s1, pre = tB ++ s1 ∧ s = s1 ++ e :: post := by
  rcases List.append_eq_append_iff.mp h with ⟨a', h1, h2⟩ | ⟨c', h1, h2⟩
  · cases a' with
    | nil => exact ⟨[], by simpa using h1.symm, by simpa using h2.symm⟩
    | cons y a2 =>
      simp only [List.cons_append, List.cons.injEq] at h2
      exact absurd (by rw [h1, h2.1]; simp) he
  · exact ⟨c', h1, h2⟩

/-- The shape of `applyFn` once the configuration is decoded. -/
theorem applyFn_eq {V : Type} (L : GoLib) (W : World V) (d : ResourceData) :
    applyFn L W d =
      match W.communicatorNew with
      | some err => (Outcome.error err, [])
      | none =>
        andThen (stagesBefore L W d (decodeConfig d).1)
          (andThen (stateRemoveStep L W (decodeConfig d).1) (stagesAfter L W (decodeConfig d).1))
          [] := rfl

/-- The three ways the clearing step ends: `Start` fails, `Wait` fails, or both
succeed. -/
theorem stateRemoveStep_cases {V : Type} (L : GoLib) (W : World V) (p : provisioner)
    (t : List Event) :
    (∃ m m2, stateRemoveStep L W p t = (Outcome.error m2,
        t ++ [⟨Site.stateRemove, Op.Start (removeDirCommand L p.RemoteStateTree), some m⟩]))
    ∨ (∃ m m2, stateRemoveStep L W p t = (Outcome.error m2,
        t ++ [⟨Site.stateRemove, Op.Start (removeDirCommand L p.RemoteStateTree), none⟩,
              ⟨Site.stateRemove, Op.Wait (removeDirCommand L p.RemoteStateTree), some m⟩]))
    ∨ stateRemoveStep L W p t = (Outcome.nil,
        t ++ [⟨Site.stateRemove, Op.Start (removeDirCommand L p.RemoteStateTree), none⟩,
              ⟨Site.stateRemove, Op.Wait (removeDirCommand L p.RemoteStateTree), none⟩]) := by
  unfold stateRemoveStep removeDir mapError andThen perform
  cases h1 : W.comm t (Op.Start (removeDirCommand L p.RemoteStateTree)) with
  | some m => left; exact ⟨m, L.Sprintf "Unable to clear salt tree: %s" [m], by simp [h1]⟩
  | none =>
    right
    cases h2 : W.comm (t ++ [⟨Site.stateRemove, Op.Start (removeDirCommand L p.RemoteStateTree),
        none⟩]) (Op.Wait (removeDirCommand L p.RemoteStateTree)) with
    | some m => left; exact ⟨m, L.Sprintf "Unable to clear salt tree: %s" [m], by simp [h1, h2]⟩
    | none => right; simp [h1, h2]

/-- Claim C6: in every run of `applyFn`, for every configuration and
communicator, a failed call of the step that clears the state-tree destination
(its `Start` or its `Wait`; it is reached only after the state-tree upload
succeeded) is the last call of the run and `applyFn` returns an error: no
state-tree move, no pillar staging call and no final invocation is issued. -/
theorem applyFn_stops_when_clear_fails {V : Type} (L : GoLib) (W : World V)
    (d : ResourceData) (res : Outcome) (pre post : List Event) (e : Event)
    (hrun : applyFn L W d = (res, pre ++ e :: post))
    (hsite : e.site = Site.stateRemove) (hfail : e.err ≠ none) :
    (∃ msg, res = Outcome.error msg) ∧ post = []
      ∧ ∀ x ∈ pre ++ e :: post, x.site ∉ sitesAfter := by
  rw [applyFn_eq] at hrun
  generalize (decodeConfig d).1 = p at hrun
  cases hc : W.communicatorNew with
  | some err =>
    rw [hc] at hrun
    simp at hrun
  | none =>
    rw [hc] at hrun
    simp only at hrun
    obtain ⟨sB, hB, hsB⟩ := emits_stagesBefore L W d p []
    rcases hBt : stagesBefore L W d p [] with ⟨rB, tB⟩
    rw [hBt] at hB
    simp only [List.nil_append] at hB
    subst hB
    have hnot : e ∉ tB := fun hmem => by
      have := hsB e hmem
      rw [hsite] at this
      revert this
      decide
    have hbefore : ∀ x ∈ tB, x.site ∉ sitesAfter := fun x hx hx2 => by
      have := hsB x hx
      revert this hx2
      cases x.site <;> decide
    unfold andThen at hrun
    rw [hBt] at hrun
    cases rB with
    | error m =>
      simp only [Prod.mk.injEq] at hrun
      exact absurd (by rw [hrun.2]; simp) hnot
    | panic m =>
      simp only [Prod.mk.injEq] at hrun
      exact absurd (by rw [hrun.2]; simp) hnot
    | nil =>
      simp only at hrun
      rcases stateRemoveStep_cases L W p tB with ⟨m, m2, hR⟩ | ⟨m, m2, hR⟩ | hR
      · rw [hR] at hrun
        simp only [Prod.mk.injEq] at hrun
        obtain ⟨s1, h1, h2⟩ := split_after_initial hrun.2.symm hnot
        cases s1 with
        | nil =>
          simp only [List.nil_append, List.cons.injEq] at h2
          refine ⟨⟨m2, hrun.1.symm⟩, h2.2.symm, ?_⟩
          intro x hx
          rw [← hrun.2] at hx
          rcases List.mem_append.mp hx with hx | hx
          · exact hbefore x hx
          · simp only [List.mem_singleton] at hx
            subst hx
            show Site.stateRemove ∉ sitesAfter
            decide
        | cons y s2 =>
          simp only [List.cons_append, List.cons.injEq] at h2
          exact absurd h2.2 (by simp)
      · rw [hR] at hrun
        simp only [Prod.mk.injEq] at hrun
        obtain ⟨s1, h1, h2⟩ := split_after_initial hrun.2.symm hnot
        have hsites : ∀ x ∈ pre ++ e :: post, x.site ∉ sitesAfter := by
          intro x hx
          rw [← hrun.2] at hx
          rcases List.mem_append.mp hx with hx | hx
          · exact hbefore x hx
          · simp only [List.mem_cons, List.mem_singleton, List.not_mem_nil, or_false] at hx
            rcases hx with hx | hx <;> subst hx <;> show Site.stateRemove ∉ sitesAfter <;> decide
        cases s1 with
        | nil =>
          simp only [List.nil_append, List.cons.injEq] at h2
          exact absurd (by rw [← h2.1]) hfail
        | cons y s2 =>
          cases s2 with
          | nil =>
            simp only [List.cons_append, List.nil_append, List.cons.injEq] at h2
            exact ⟨⟨m2, hrun.1.symm⟩, h2.2.2.symm, hsites⟩
          | cons z s3 =>
            simp only [List.cons_append, List.cons.injEq] at h2
            exact absurd h2.2.2 (by simp)
      · rw [hR] at hrun
        simp only at hrun
        obtain ⟨sA, hA, hsA⟩ := emits_stagesAfter L W p
          (tB ++ [⟨Site.stateRemove, Op.Start (removeDirCommand L p.RemoteStateTree), none⟩,
              ⟨Site.stateRemove, Op.Wait (removeDirCommand L p.RemoteStateTree), none⟩])
        rw [hrun] at hA
        simp only [List.append_assoc] at hA
        obtain ⟨s1, h1, h2⟩ := split_after_initial hA hnot
        exfalso
        have hmem : e ∈ s1 ++ e :: post := by simp
        rw [← h2] at hmem
        simp only [List.cons_append, List.nil_append, List.mem_cons] at hmem
        rcases hmem with hx | hx | hx
        · exact hfail (by rw [hx])
        · exact hfail (by rw [hx])
        · have := hsA e hx
          rw [hsite] at this
          revert this
          decide


/-- A sequence ends with `nil` only when both pieces do. -/
theorem andThen_nil {a b : Run} {t t2 : List Event} (h : andThen a b t = (Outcome.nil, t2)) :
    ∃ t1, a t = (Outcome.nil, t1) ∧ b t1 = (Outcome.nil, t2) := by
  unfold andThen at h
  rcases hat : a t with ⟨r, t1⟩
  rw [hat] at h
  cases r with
  | nil => exact ⟨t1, rfl, h⟩
  | error m => simp at h
  | panic m => simp at h

/-- Replacing the error message keeps a `nil` outcome. -/
theorem mapError_nil {f : String → String} {a : Run} {t t2 : List Event}
    (h : mapError f a t = (Outcome.nil, t2)) : a t = (Outcome.nil, t2) := by
  unfold mapError at h
  rcases hat : a t with ⟨r, t1⟩
  rw [hat] at h
  cases r with
  | nil => exact h
  | error m => simp at h
  | panic m => simp at h

/-- A call that returns `nil` added its event with no error. -/
theorem perform_nil {V : Type} {W : World V} {site : Site} {op : Op} {t t2 : List Event}
    (h : perform W site op t = (Outcome.nil, t2)) : t2 = t ++ [⟨site, op, none⟩] := by
  unfold perform at h
  cases hc : W.comm t op with
  | none => rw [hc] at h; simpa using h.symm
  | some m => rw [hc] at h; simp at h

/-- A call adds its event, whatever it returns. -/
theorem perform_snd {V : Type} (W : World V) (site : Site) (op : Op) (t : List Event) :
    ∃ err, (perform W site op t).2 = t ++ [⟨site, op, err⟩] := by
  unfold perform
  cases W.comm t op <;> exact ⟨_, rfl⟩

/-- The events of a successful `createDir`. -/
theorem createDir_nil {V : Type} {L : GoLib} {W : World V} {site : Site} {dir : String}
    {t t2 : List Event} (h : createDir L W site dir t = (Outcome.nil, t2)) :
    t2 = t ++ [⟨site, Op.Start (createDirCommand L dir), none⟩,
      ⟨site, Op.Wait (createDirCommand L dir), none⟩] := by
  obtain ⟨t1, h1, h2⟩ := andThen_nil h
  rw [perform_nil h2, perform_nil h1]
  simp

/-- The events of a successful `removeDir`. -/
theorem removeDir_nil {V : Type} {L : GoLib} {W : World V} {site : Site} {dir : String}
    {t t2 : List Event} (h : removeDir L W site dir t = (Outcome.nil, t2)) :
    t2 = t ++ [⟨site, Op.Start (removeDirCommand L dir), none⟩,
      ⟨site, Op.Wait (removeDirCommand L dir), none⟩] := by
  obtain ⟨t1, h1, h2⟩ := andThen_nil h
  rw [perform_nil h2, perform_nil h1]
  simp

/-- The events of a successful `moveFile`. -/
theorem moveFile_nil {V : Type} {L : GoLib} {W : World V} {site : Site} {p : provisioner}
    {dst src : String} {t t2 : List Event}
    (h : moveFile L W site p dst src t = (Outcome.nil, t2)) :
    t2 = t ++ [⟨site, Op.Start (moveFileCommand L p dst src), none⟩,
      ⟨site, Op.Wait (moveFileCommand L p dst src), none⟩] := by
  obtain ⟨t1, h1, h2⟩ := andThen_nil h
  rw [perform_nil h2, perform_nil (mapError_nil h1)]
  simp

/-- The events of a successful `uploadDir`, which needs a non-empty source. -/
theorem uploadDir_nil {V : Type} {L : GoLib} {W : World V} {site : Site} {dst src : String}
    {t t2 : List Event} (h : uploadDir L W site dst src t = (Outcome.nil, t2)) :
    src ≠ "" ∧ t2 = t ++ [⟨site, Op.Start (createDirCommand L dst), none⟩,
      ⟨site, Op.Wait (createDirCommand L dst), none⟩,
      ⟨site, Op.UploadDir dst (withTrailingSlash src), none⟩] := by
  obtain ⟨t1, h1, h2⟩ := andThen_nil h
  by_cases hs : src = ""
  · simp [hs, panicWith] at h2
  · rw [if_neg hs] at h2
    rw [perform_nil h2, createDir_nil h1]
    simp [hs]

/-- The events of a final invocation whose `Wait` succeeds. -/
theorem saltCallStage_nil {V : Type} {L : GoLib} {W : World V} {p : provisioner}
    {t t2 : List Event} (h : saltCallStage L W p t = (Outcome.nil, t2)) :
    ∃ startErr, t2 = t ++ [⟨Site.saltCall, Op.Start (saltCallCommand L p), startErr⟩,
      ⟨Site.saltCall, Op.Wait (saltCallCommand L p), none⟩] := by
  obtain ⟨t1, h1, h2⟩ := andThen_nil h
  obtain ⟨err, herr⟩ := perform_snd W Site.saltCall (Op.Start (saltCallCommand L p)) t
  have ht1 : t1 = t ++ [⟨Site.saltCall, Op.Start (saltCallCommand L p), err⟩] := by
    rw [← herr]
    unfold discardError mapError at h1
    rcases hp : perform W Site.saltCall (Op.Start (saltCallCommand L p)) t with ⟨r, t3⟩
    rw [hp] at h1
    cases r <;> simp at h1 <;> simp [h1]
  refine ⟨err, ?_⟩
  rw [perform_nil h2, ht1]
  simp

/-- Four events picked in order out of the staged run. -/
theorem sublist_of_stages {α : Type} (a b c d x1 x2 y z w : α) (t5 sP : List α) :
    List.Sublist [a, b, c, d] (t5 ++ [x1, x2, a] ++ [b, y] ++ [c, z] ++ sP ++ [d, w]) := by
  have h1 : List.Sublist [a] (t5 ++ [x1, x2, a]) := List.singleton_sublist.mpr (by simp)
  have h2 : List.Sublist [b] [b, y] := List.singleton_sublist.mpr (by simp)
  have h3 : List.Sublist [c] [c, z] := List.singleton_sublist.mpr (by simp)
  have h4 : List.Sublist [d] [d, w] := List.singleton_sublist.mpr (by simp)
  exact ((((h1.append h2).append h3).append (List.nil_sublist sP)).append h4)

/-- Claim C8: in every run of `applyFn` that returns `nil` the calls hold, in
this order, the upload of the state tree into the staging directory, the start
of the command clearing the state-tree destination, the start of the command
moving the state tree, and the start of the final invocation. -/
theorem applyFn_success_order {V : Type} (L : GoLib) (W : World V) (d : ResourceData)
    (t : List Event)
    (hrun : applyFn L W d = (Outcome.nil, t)) :
    ∃ startErr, List.Sublist
      [⟨Site.stateUpload,
          Op.UploadDir (L.ToSlash (L.Join (decodeConfig d).1.TempConfigDir "states"))
            (withTrailingSlash (decodeConfig d).1.LocalStateTree), none⟩,
        ⟨Site.stateRemove,
          Op.Start (removeDirCommand L (decodeConfig d).1.RemoteStateTree), none⟩,
        ⟨Site.stateMove,
          Op.Start (moveFileCommand L (decodeConfig d).1 (decodeConfig d).1.RemoteStateTree
            (L.ToSlash (L.Join (decodeConfig d).1.TempConfigDir "states"))), none⟩,
        ⟨Site.saltCall, Op.Start (saltCallCommand L (decodeConfig d).1), startErr⟩]
      t := by
  rw [applyFn_eq] at hrun
  generalize (decodeConfig d).1 = p at hrun ⊢
  cases hc : W.communicatorNew with
  | some err => rw [hc] at hrun; simp at hrun
  | none =>
    rw [hc] at hrun
    simp only at hrun
    obtain ⟨tB, hB, hrest⟩ := andThen_nil hrun
    obtain ⟨tR, hR, hA⟩ := andThen_nil hrest
    unfold stagesBefore at hB
    obtain ⟨t1, _, hB⟩ := andThen_nil hB
    obtain ⟨t2, _, hB⟩ := andThen_nil hB
    obtain ⟨t3, _, hB⟩ := andThen_nil hB
    obtain ⟨t4, _, hB⟩ := andThen_nil hB
    obtain ⟨t5, _, hB⟩ := andThen_nil hB
    obtain ⟨_, hup⟩ := uploadDir_nil (mapError_nil hB)
    have hrm := removeDir_nil (mapError_nil hR)
    unfold stagesAfter at hA
    obtain ⟨tM, hM, hA⟩ := andThen_nil hA
    obtain ⟨tP, hP, hS⟩ := andThen_nil hA
    have hmv := moveFile_nil (mapError_nil hM)
    obtain ⟨sP, hsP, _⟩ := emits_pillarStage L W p tM
    rw [hP] at hsP
    simp only at hsP
    obtain ⟨startErr, hsc⟩ := saltCallStage_nil hS
    refine ⟨startErr, ?_⟩
    rw [hsc, hsP, hmv, hrm, hup]
    exact sublist_of_stages _ _ _ _ _ _ _ _ _ _ _

/-- Witness for claim C6: with the destination `/srv/salt` and a clearing
command that exits non-zero, the run ends at the failed `Wait` with an error. -/
theorem applyFn_stops_when_clear_fails_witness :
    applyFn goLib clearFailsWorld rootedData
      = (Outcome.error "Unable to clear salt tree: exit status 1",
          clearFailsCalls ++ clearFailsLast :: [])
    ∧ clearFailsLast.site = Site.stateRemove
    ∧ clearFailsLast.err ≠ none
    ∧ ((∃ msg, Outcome.error "Unable to clear salt tree: exit status 1" = Outcome.error msg)
        ∧ ([] : List Event) = []
        ∧ ∀ x ∈ clearFailsCalls ++ clearFailsLast :: [], x.site ∉ sitesAfter) :=
  ⟨by decide, rfl, by decide,
    applyFn_stops_when_clear_fails goLib clearFailsWorld rootedData _ clearFailsCalls []
      clearFailsLast (by decide) rfl (by decide)⟩

/-- Witness for claim C8: the bare configuration on a communicator that always
succeeds returns `nil`, and its calls hold the four events in order. -/
theorem applyFn_success_order_witness :
    applyFn goLib calmWorld bareData = (Outcome.nil, (applyFn goLib calmWorld bareData).2)
    ∧ ∃ startErr, List.Sublist
        [⟨Site.stateUpload,
            Op.UploadDir (goLib.ToSlash (goLib.Join (decodeConfig bareData).1.TempConfigDir "states"))
              (withTrailingSlash (decodeConfig bareData).1.LocalStateTree), none⟩,
          ⟨Site.stateRemove,
            Op.Start (removeDirCommand goLib (decodeConfig bareData).1.RemoteStateTree), none⟩,
          ⟨Site.stateMove,
            Op.Start (moveFileCommand goLib (decodeConfig bareData).1
              (decodeConfig bareData).1.RemoteStateTree
              (goLib.ToSlash (goLib.Join (decodeConfig bareData).1.TempConfigDir "states"))),
            none⟩,
          ⟨Site.saltCall, Op.Start (saltCallCommand goLib (decodeConfig bareData).1), startErr⟩]
        (applyFn goLib calmWorld bareData).2 :=
  ⟨by decide, applyFn_success_order goLib calmWorld bareData _ (by decide)⟩

/-- Claim C7, as the code has it: for every configuration with `SkipBootstrap`
true, `Grains` false, no pillar roots, no minion config and a non-empty local
state tree, on a communicator on which every call succeeds, `applyFn` returns
`nil` and its calls are exactly: the connection, the creation of the temporary
directory (made whether or not grains are enabled), the state-tree staging
(creation of the staging directory, upload, clearing of the destination, move)
and the final invocation.  No bootstrap, grains-file, minion-config or pillar
call is issued. -/
theorem applyFn_minimal_run {V : Type} (L : GoLib) (W : World V) (d : ResourceData)
    (hskip : d.skip_bootstrap = true) (hgrains : d.grains = false)
    (hpillar : d.local_pillar_roots = "") (hminion : d.minion_config_file = "")
    (htree : d.local_state_tree ≠ "")
    (hnew : W.communicatorNew = none) (hcomm : ∀ t op, W.comm t op = none) :
    applyFn L W d = (Outcome.nil,
      [⟨Site.connect, Op.Connect, none⟩,
       ⟨Site.tempDir, Op.Start (createDirCommand L d.temp_config_dir), none⟩,
       ⟨Site.tempDir, Op.Wait (createDirCommand L d.temp_config_dir), none⟩,
       ⟨Site.stateUpload,
          Op.Start (createDirCommand L (L.ToSlash (L.Join d.temp_config_dir "states"))), none⟩,
       ⟨Site.stateUpload,
          Op.Wait (createDirCommand L (L.ToSlash (L.Join d.temp_config_dir "states"))), none⟩,
       ⟨Site.stateUpload,
          Op.UploadDir (L.ToSlash (L.Join d.temp_config_dir "states"))
            (withTrailingSlash d.local_state_tree), none⟩,
       ⟨Site.stateRemove, Op.Start (removeDirCommand L d.remote_state_tree), none⟩,
       ⟨Site.stateRemove, Op.Wait (removeDirCommand L d.remote_state_tree), none⟩,
       ⟨Site.stateMove,
          Op.Start (moveFileCommand L (decodeConfig d).1 d.remote_state_tree
            (L.ToSlash (L.Join d.temp_config_dir "states"))), none⟩,
       ⟨Site.stateMove,
          Op.Wait (moveFileCommand L (decodeConfig d).1 d.remote_state_tree
            (L.ToSlash (L.Join d.temp_config_dir "states"))), none⟩,
       ⟨Site.saltCall, Op.Start (saltCallCommand L (decodeConfig d).1), none⟩,
       ⟨Site.saltCall, Op.Wait (saltCallCommand L (decodeConfig d).1), none⟩]) := by
  have h1 : (decodeConfig d).1.SkipBootstrap = true := hskip
  have h2 : (decodeConfig d).1.Grains = false := hgrains
  have h3 : (decodeConfig d).1.LocalPillarRoots = "" := hpillar
  have h4 : (decodeConfig d).1.MinionConfig = "" := hminion
  have h5 : (decodeConfig d).1.LocalStateTree ≠ "" := htree
  have h6 : (decodeConfig d).1.TempConfigDir = d.temp_config_dir := rfl
  have h7 : (decodeConfig d).1.RemoteStateTree = d.remote_state_tree := rfl
  have h8 : (decodeConfig d).1.LocalStateTree = d.local_state_tree := rfl
  rw [applyFn_eq, hnew]
  rw [← h6, ← h7, ← h8]
  generalize (decodeConfig d).1 = p at h1 h2 h3 h4 h5 ⊢
  simp [stagesBefore, stagesAfter, bootstrapStage, tempDirStage, grainsStage, minionStage,
    stateUploadStep, stateRemoveStep, stateMoveStep, pillarStage, saltCallStage, createDir,
    removeDir, moveFile, uploadDir, andThen, mapError, discardError, perform, skip, hcomm,
    h1, h2, h3, h4, h5]

/-- Witness for claim C7: the bare configuration on a communicator that always
succeeds. -/
theorem applyFn_minimal_run_witness :
    applyFn goLib calmWorld bareData = (Outcome.nil,
      [⟨Site.connect, Op.Connect, none⟩,
       ⟨Site.tempDir, Op.Start "mkdir -p '/tmp/salt'", none⟩,
       ⟨Site.tempDir, Op.Wait "mkdir -p '/tmp/salt'", none⟩,
       ⟨Site.stateUpload, Op.Start "mkdir -p '/tmp/salt/states'", none⟩,
       ⟨Site.stateUpload, Op.Wait "mkdir -p '/tmp/salt/states'", none⟩,
       ⟨Site.stateUpload, Op.UploadDir "/tmp/salt/states" "salt/", none⟩,
       ⟨Site.stateRemove, Op.Start "rm -rf ''", none⟩,
       ⟨Site.stateRemove, Op.Wait "rm -rf ''", none⟩,
       ⟨Site.stateMove, Op.Start "sudo mv /tmp/salt/states ", none⟩,
       ⟨Site.stateMove, Op.Wait "sudo mv /tmp/salt/states ", none⟩,
       ⟨Site.saltCall, Op.Start
          "sudo salt-call --local  state.highstate --file-root=/srv/salt --pillar-root=/srv/pillar --retcode-passthrough -l info",
          none⟩,
       ⟨Site.saltCall, Op.Wait
          "sudo salt-call --local  state.highstate --file-root=/srv/salt --pillar-root=/srv/pillar --retcode-passthrough -l info",
          none⟩]) :=
  applyFn_minimal_run goLib calmWorld bareData rfl rfl rfl rfl (by decide) rfl (fun _ _ => rfl)

/-- Counterexample to claim C7 as stated: the bare configuration has
`SkipBootstrap` true, `Grains` false, no pillar roots and no minion config, the
communicator always succeeds, and still the first call after connecting is
`mkdir -p '/tmp/salt'`, issued outside state-tree staging and outside the final
invocation: the calls are not exactly those two stages. -/
theorem applyFn_minimal_run_creates_temp_dir :
    (decodeConfig bareData).1.SkipBootstrap = true
    ∧ (decodeConfig bareData).1.Grains = false
    ∧ (decodeConfig bareData).1.LocalPillarRoots = ""
    ∧ (decodeConfig bareData).1.MinionConfig = ""
    ∧ (applyFn goLib calmWorld bareData).2.get? 1
        = some ⟨Site.tempDir, Op.Start "mkdir -p '/tmp/salt'", none⟩
    ∧ ¬ ∀ e ∈ (applyFn goLib calmWorld bareData).2, e.site ∈ sitesStateTreeAndSaltCall := by
  decide

/-- Claim C5, the code at the failing input: with no minion config and
`remote_state_tree` unset, `applyFn` clears and moves into the empty path
(`rm -rf ''`, `mv /tmp/salt/states` with no destination) while the final
invocation names `--file-root=/srv/salt`. -/
theorem applyFn_state_destination_lacks_default :
    (decodeConfig bareData).1.MinionConfig = ""
    ∧ (decodeConfig bareData).1.RemoteStateTree = ""
    ∧ (applyFn goLib calmWorld bareData).2.filter
        (fun e => decide (e.site ∈ [Site.stateRemove, Site.stateMove, Site.saltCall]))
      = [⟨Site.stateRemove, Op.Start "rm -rf ''", none⟩,
         ⟨Site.stateRemove, Op.Wait "rm -rf ''", none⟩,
         ⟨Site.stateMove, Op.Start "sudo mv /tmp/salt/states ", none⟩,
         ⟨Site.stateMove, Op.Wait "sudo mv /tmp/salt/states ", none⟩,
         ⟨Site.saltCall, Op.Start
            "sudo salt-call --local  state.highstate --file-root=/srv/salt --pillar-root=/srv/pillar --retcode-passthrough -l info",
            none⟩,
         ⟨Site.saltCall, Op.Wait
            "sudo salt-call --local  state.highstate --file-root=/srv/salt --pillar-root=/srv/pillar --retcode-passthrough -l info",
            none⟩] := by
  decide

/-- Claim C9, the code at the failing input: with elevation enabled and the
password `pw`, `createDir` starts `mkdir -p '/tmp/salt'` and `removeDir` starts
`rm -rf '/srv/salt'`, neither wrapped, where `sudo` of these commands is
`echo 'pw' | sudo -S ...`; only `moveFile` and the final invocation are
wrapped. -/
theorem createDir_removeDir_not_elevated :
    (decodeConfig passwordData).1.DisableSudo = false
    ∧ (applyFn goLib calmWorld passwordData).2.map (fun e => e.op)
      = [Op.Connect,
         Op.Start "mkdir -p '/tmp/salt'",
         Op.Wait "mkdir -p '/tmp/salt'",
         Op.Start "mkdir -p '/tmp/salt/states'",
         Op.Wait "mkdir -p '/tmp/salt/states'",
         Op.UploadDir "/tmp/salt/states" "salt/",
         Op.Start "rm -rf '/srv/salt'",
         Op.Wait "rm -rf '/srv/salt'",
         Op.Start "echo 'pw' | sudo -S mv /tmp/salt/states /srv/salt",
         Op.Wait "echo 'pw' | sudo -S mv /tmp/salt/states /srv/salt",
         Op.Start
          "echo 'pw' | sudo -S salt-call --local  state.highstate --file-root=/srv/salt --pillar-root=/srv/pillar --retcode-passthrough -l info",
         Op.Wait
          "echo 'pw' | sudo -S salt-call --local  state.highstate --file-root=/srv/salt --pillar-root=/srv/pillar --retcode-passthrough -l info"]
    ∧ (decodeConfig passwordData).1.sudo "mkdir -p '/tmp/salt'"
        = "echo 'pw' | sudo -S mkdir -p '/tmp/salt'"
    ∧ (decodeConfig passwordData).1.sudo "rm -rf '/srv/salt'"
        = "echo 'pw' | sudo -S rm -rf '/srv/salt'" := by
  decide

/-- Format text without a percent sign is copied. -/
theorem sprintfAux_plain_append (pre rest : List Char) (args : List String)
    (h : '%' ∉ pre) : sprintfAux (pre ++ rest) args = pre ++ sprintfAux rest args := by
  induction pre with
  | nil => rfl
  | cons c pre ih =>
    have hc : c ≠ '%' := fun hc => h (by simp [hc])
    have hp : '%' ∉ pre := fun hp => h (by simp [hp])
    rw [List.cons_append, sprintfAux.eq_def]
    simp [hc, ih hp]

/-- The format `mv %s %s` on two operands. -/
theorem sprintfAux_mv (src dst : String) :
    sprintfAux "mv %s %s".data [src, dst] = "mv ".data ++ src.data ++ " ".data ++ dst.data := by
  simp [sprintfAux, extraArgs]

/-- With elevation disabled, or a password without a percent sign, the command
of `moveFile` is the wrapped move command. -/
theorem moveFileCommand_without_percent (p : provisioner) (dst src : String)
    (h : p.DisableSudo = true ∨ '%' ∉ p.SudoPassword.data) :
    moveFileCommand goLib p dst src = p.sudo ("mv " ++ src ++ " " ++ dst) := by
  unfold moveFileCommand goLib Sprintf provisioner.sudo
  apply String.ext
  rcases Bool.eq_false_or_eq_true p.DisableSudo with hd | hd
  · simp only [hd, if_true, String.data_append]
    exact sprintfAux_mv src dst
  · have hp : '%' ∉ p.SudoPassword.data := h.resolve_left (by simp [hd])
    by_cases hpw : p.SudoPassword = ""
    · simp only [hd, hpw, Bool.false_eq_true, if_false, String.data_append, ne_eq,
        not_true_eq_false]
      rw [sprintfAux_plain_append _ _ _ (by decide), sprintfAux_mv]
    · simp only [hd, hpw, Bool.false_eq_true, if_false, String.data_append, ne_eq,
        not_false_eq_true, if_true]
      rw [sprintfAux_plain_append _ _ _ (by
        simp only [List.mem_append, not_or]
        exact ⟨⟨by decide, hp⟩, by decide⟩), sprintfAux_mv]

/-- Claim C10, the code at the failing input: with the password `a%sb` the
wrapped text is used as the format string, so `%s` inside the password takes
the source path, the destination moves up and the last directive finds no
operand; the command differs from `sudo ("mv " + src + " " + dst)`. -/
theorem moveFile_formats_password :
    plainDirectives ((decodeConfig percentData).1.sudo "mv %s %s").data = true
    ∧ moveFileCommand goLib (decodeConfig percentData).1 "/srv/salt" "/tmp/salt/states"
        = "echo 'a/tmp/salt/statesb' | sudo -S mv /srv/salt %!s(MISSING)"
    ∧ (decodeConfig percentData).1.sudo ("mv " ++ "/tmp/salt/states" ++ " " ++ "/srv/salt")
        = "echo 'a%sb' | sudo -S mv /tmp/salt/states /srv/salt"
    ∧ (moveFile goLib calmWorld Site.stateMove (decodeConfig percentData).1 "/srv/salt"
          "/tmp/salt/states" []).2.map (fun e => e.op)
        = [Op.Start "echo 'a/tmp/salt/statesb' | sudo -S mv /srv/salt %!s(MISSING)",
           Op.Wait "echo 'a/tmp/salt/statesb' | sudo -S mv /srv/salt %!s(MISSING)"] := by
  decide

/-! ## Discarded `Start` errors -/

/-- A piece that reaches only sites of `S` reaches only sites of a larger list. -/
theorem emits_mono {S S2 : List Site} {r : Run} (h : ∀ x ∈ S, x ∈ S2) (hr : Emits S r) :
    Emits S2 r := by
  intro t
  obtain ⟨s, hs, hmem⟩ := hr t
  exact ⟨s, hs, fun e he => h _ (hmem e he)⟩

/-- Everything `applyFn` does before the final invocation reaches no site of
the final invocation. -/
theorem emits_beforeSaltCall {V : Type} (L : GoLib) (W : World V) (d : ResourceData)
    (p : provisioner) :
    Emits sitesBeforeSaltCall
      (andThen (stagesBefore L W d p)
        (andThen (stateRemoveStep L W p) (andThen (stateMoveStep L W p) (pillarStage L W p)))) := by
  refine emits_andThen (emits_mono (by decide) (emits_stagesBefore L W d p))
    (emits_andThen ?_ (emits_andThen ?_ ?_))
  · exact emits_mapError _ (emits_removeDir L W _ (by decide))
  · exact emits_mapError _ (emits_moveFile L W _ _ _ (by decide))
  · unfold pillarStage
    split
    · exact emits_andThen (emits_mapError _ (emits_uploadDir L W _ _ (by decide)))
        (emits_andThen (emits_mapError _ (emits_removeDir L W _ (by decide)))
          (emits_mapError _ (emits_moveFile L W _ _ _ (by decide))))
    · exact emits_skip _

/-- Sequencing is associative. -/
theorem andThen_assoc (a b c : Run) : andThen (andThen a b) c = andThen a (andThen b c) := by
  funext t
  unfold andThen
  rcases hat : a t with ⟨r, t1⟩
  cases r <;> simp

/-- The pattern of a dropped `Start` error, for every communicator: the answer
to the call is recorded and the rest runs, whatever the answer was. -/
theorem andThen_discardError_perform {V : Type} (W : World V) (site : Site) (op : Op)
    (f : String → String) (rest : Run) (t : List Event) :
    andThen (discardError (mapError f (perform W site op))) rest t
      = rest (t ++ [⟨site, op, W.comm t op⟩]) := by
  unfold andThen discardError mapError perform
  cases h1 : W.comm t op <;> simp

/-- The outcome of a single call is the answer to it. -/
theorem perform_eq {V : Type} (W : World V) (site : Site) (op : Op) (t : List Event) :
    perform W site op t = (outcomeOf (W.comm t op), t ++ [⟨site, op, W.comm t op⟩]) := by
  unfold perform outcomeOf
  cases h1 : W.comm t op <;> simp

/-- The final invocation, for every communicator: the answer to `Start` is
recorded and nothing else; the outcome is the answer to `Wait`. -/
theorem saltCallStage_eq {V : Type} (L : GoLib) (W : World V) (p : provisioner)
    (t : List Event) :
    saltCallStage L W p t =
      (outcomeOf (W.comm
          (t ++ [⟨Site.saltCall, Op.Start (saltCallCommand L p),
            W.comm t (Op.Start (saltCallCommand L p))⟩])
          (Op.Wait (saltCallCommand L p))),
        t ++ [⟨Site.saltCall, Op.Start (saltCallCommand L p),
            W.comm t (Op.Start (saltCallCommand L p))⟩,
          ⟨Site.saltCall, Op.Wait (saltCallCommand L p),
            W.comm
              (t ++ [⟨Site.saltCall, Op.Start (saltCallCommand L p),
                W.comm t (Op.Start (saltCallCommand L p))⟩])
              (Op.Wait (saltCallCommand L p))⟩]) := by
  unfold saltCallStage
  rw [andThen_discardError_perform, perform_eq]
  simp

/-- The bootstrap block, for every communicator: once the answer to the
download `Start` is recorded the block goes on to `Wait` and to the install
command, whatever that answer was. -/
theorem bootstrapStage_eq {V : Type} (L : GoLib) (W : World V) (p : provisioner)
    (t : List Event) (hskip : p.SkipBootstrap = false) :
    bootstrapStage L W p t =
      andThen
        (perform W Site.bootstrapDownload (Op.Wait (L.Sprintf downloadCommand [])))
        (andThen
          (mapError (fun err => L.Sprintf "Unable to install Salt: %s" [err])
            (perform W Site.bootstrapInstall
              (Op.Start (L.Sprintf "%s /tmp/install_salt.sh %s" [p.sudo "sh", p.BootstrapArgs]))))
          (perform W Site.bootstrapInstall
            (Op.Wait (L.Sprintf "%s /tmp/install_salt.sh %s" [p.sudo "sh", p.BootstrapArgs]))))
        (t ++ [⟨Site.bootstrapDownload, Op.Start (L.Sprintf downloadCommand []),
          W.comm t (Op.Start (L.Sprintf downloadCommand []))⟩]) := by
  unfold bootstrapStage
  simp only [hskip, Bool.not_false, if_true]
  exact andThen_discardError_perform W _ _ _ _ t

/-- For every configuration and communicator: a run of `applyFn` whose last
call was issued by the final invocation ended with its `Wait`, and the result
of `applyFn` is the answer to that `Wait` alone. -/
theorem applyFn_result_is_final_wait {V : Type} (L : GoLib) (W : World V) (d : ResourceData)
    (res : Outcome) (pre : List Event) (e : Event)
    (hrun : applyFn L W d = (res, pre ++ [e])) (hsite : e.site = Site.saltCall) :
    e.op = Op.Wait (saltCallCommand L (decodeConfig d).1) ∧ res = outcomeOf e.err := by
  rw [applyFn_eq] at hrun
  generalize (decodeConfig d).1 = p at hrun ⊢
  cases hc : W.communicatorNew with
  | some err => rw [hc] at hrun; simp at hrun
  | none =>
    rw [hc] at hrun
    simp only at hrun
    unfold stagesAfter at hrun
    rw [← andThen_assoc (stateMoveStep L W p), ← andThen_assoc (stateRemoveStep L W p),
      ← andThen_assoc (stagesBefore L W d p)] at hrun
    obtain ⟨sB, hB, hsB⟩ := emits_beforeSaltCall L W d p []
    generalize andThen (stagesBefore L W d p)
      (andThen (stateRemoveStep L W p) (andThen (stateMoveStep L W p) (pillarStage L W p)))
      = before at hrun hB
    rcases hBt : before [] with ⟨rB, tB⟩
    rw [hBt] at hB
    simp only [List.nil_append] at hB
    subst hB
    have hnot : e ∉ tB := fun hmem => by
      have := hsB e hmem
      rw [hsite] at this
      revert this
      decide
    unfold andThen at hrun
    rw [hBt] at hrun
    cases rB with
    | error m =>
      simp only [Prod.mk.injEq] at hrun
      exact absurd (by rw [hrun.2]; simp) hnot
    | panic m =>
      simp only [Prod.mk.injEq] at hrun
      exact absurd (by rw [hrun.2]; simp) hnot
    | nil =>
      simp only at hrun
      rw [saltCallStage_eq, Prod.mk.injEq] at hrun
      obtain ⟨hres, htr⟩ := hrun
      have hlast := congrArg List.getLast? htr
      rw [List.getLast?_concat] at hlast
      simp at hlast
      subst hlast
      exact ⟨rfl, hres.symm⟩

set_option maxRecDepth 8000 in
/-- Claim C11, the code at the failing input: with bootstrap enabled, on a
communicator whose `Start` fails for the download command and for the final
invocation while every `Wait` returns `nil`, `applyFn` runs every stage and
returns `nil`: both `Start` errors are assigned and dropped, and the result is
that of the last `Wait`.  The `Start` of the install command is the sibling
that does return its error. -/
theorem applyFn_discards_start_errors :
    applyFn goLib startFailsWorld bootstrapData
      = (Outcome.nil,
          [⟨Site.connect, Op.Connect, none⟩,
           ⟨Site.bootstrapDownload, Op.Start downloadCommand, some "session refused"⟩,
           ⟨Site.bootstrapDownload, Op.Wait downloadCommand, none⟩,
           ⟨Site.bootstrapInstall, Op.Start "sudo sh /tmp/install_salt.sh ", none⟩,
           ⟨Site.bootstrapInstall, Op.Wait "sudo sh /tmp/install_salt.sh ", none⟩,
           ⟨Site.tempDir, Op.Start "mkdir -p '/tmp/salt'", none⟩,
           ⟨Site.tempDir, Op.Wait "mkdir -p '/tmp/salt'", none⟩,
           ⟨Site.stateUpload, Op.Start "mkdir -p '/tmp/salt/states'", none⟩,
           ⟨Site.stateUpload, Op.Wait "mkdir -p '/tmp/salt/states'", none⟩,
           ⟨Site.stateUpload, Op.UploadDir "/tmp/salt/states" "salt/", none⟩,
           ⟨Site.stateRemove, Op.Start "rm -rf '/srv/salt'", none⟩,
           ⟨Site.stateRemove, Op.Wait "rm -rf '/srv/salt'", none⟩,
           ⟨Site.stateMove, Op.Start "sudo mv /tmp/salt/states /srv/salt", none⟩,
           ⟨Site.stateMove, Op.Wait "sudo mv /tmp/salt/states /srv/salt", none⟩,
           ⟨Site.saltCall, Op.Start rootedSaltCall, some "session refused"⟩,
           ⟨Site.saltCall, Op.Wait rootedSaltCall, none⟩])
    ∧ applyFn goLib installFailsWorld bootstrapData
      = (Outcome.error "Unable to install Salt: session refused",
          [⟨Site.connect, Op.Connect, none⟩,
           ⟨Site.bootstrapDownload, Op.Start downloadCommand, none⟩,
           ⟨Site.bootstrapDownload, Op.Wait downloadCommand, none⟩,
           ⟨Site.bootstrapInstall, Op.Start "sudo sh /tmp/install_salt.sh ",
              some "session refused"⟩]) :=
  ⟨by decide, by decide⟩

end Saltstack
